import Mathlib

/-!
# Source synchronisation (`builder/sources/git.go`)

A shallow embedding of the Go file `builder/sources/git.go` and the properties
proved about it.

* Strings are Lean `String`s; byte-level library routines (`strings.Contains`,
  `path.Clean`, `path.Join`) work on the underlying character lists.
* Go `error` values are the type `GoError`: the sentinel values the file compares
  against by identity, and any other error with its message text.
* The outside world (filesystem, transport, key loading, key generation) is an
  explicit `World` value threaded through every function; the library and
  operating-system calls are the fields of `Env`, each free to depend on the
  whole `World`, including the history of calls made so far.
* The `goto Loop` of `GitClone` and `GitPull` is a pass function returning either
  `goto` or `ret`, iterated by `runLoop` under a fuel bound.
-/

set_option autoImplicit false

namespace Sources

/-! ## Go values -/

/-- Go `error` values.  The six named constructors are the sentinel values of
`go-git` that the file compares with `==`; `other` is any other error value,
carrying the text its `Error()` method returns. -/
inductive GoError where
  | ErrAuthenticationRequired
  | ErrAuthorizationFailed
  | ErrRepositoryNotFound
  | ErrEmptyRemoteRepository
  | ErrReferenceNotFound
  | NoErrAlreadyUpToDate
  | other (text : String)
  deriving DecidableEq, Repr

/-- The text of `err.Error()`; the sentinel texts are those of `go-git` v4. -/
def GoError.Error : GoError → String
  | .ErrAuthenticationRequired => "authentication required"
  | .ErrAuthorizationFailed => "authorization failed"
  | .ErrRepositoryNotFound => "repository not found"
  | .ErrEmptyRemoteRepository => "remote repository is empty"
  | .ErrReferenceNotFound => "reference not found"
  | .NoErrAlreadyUpToDate => "already up-to-date"
  | .other text => text

/-- Whether `sub` occurs as a contiguous block of `s`. -/
def hasInfix (sub : List Char) : List Char → Bool
  | [] => sub.isEmpty
  | c :: cs => sub.isPrefixOf (c :: cs) || hasInfix sub cs

/-- Go `strings.Contains(s, substr)`. -/
def strings_Contains (s substr : String) : Bool :=
  hasInfix substr.data s.data

/-- Go conversion of an integer to `int64` (two's complement wrap-around). -/
def wrapInt64 (x : Int) : Int :=
  (x + 2 ^ 63) % 2 ^ 64 - 2 ^ 63

/-- Go `time.Minute`, in nanoseconds. -/
def time_Minute : Int := 60000000000

/-- Go `time.Minute * time.Duration(timeout)`: an `int64` product. -/
def minutes (timeout : Int) : Int :=
  wrapInt64 (time_Minute * wrapInt64 timeout)

/-! ## `path.Clean` and `path.Join` -/

/-- The pieces of a path between its slashes. -/
def splitSlash : List Char → List (List Char)
  | [] => [[]]
  | c :: cs =>
    if c = '/' then [] :: splitSlash cs
    else
      match splitSlash cs with
      | [] => [[c]]
      | h :: t => (c :: h) :: t

/-- The pieces joined by single slashes. -/
def joinSlash : List (List Char) → List Char
  | [] => []
  | [a] => a
  | a :: b :: r => a ++ '/' :: joinSlash (b :: r)

/-- One element of the scan of `path.Clean`; `out` holds the elements written so
far, the last one first.  Empty and `.` elements are dropped; `..` removes the
element before it, is dropped at the root of a rooted path, and is kept at the
start of a relative path; any other element is written. -/
def cleanStep (rooted : Bool) (out : List (List Char)) (c : List Char) : List (List Char) :=
  if c = [] ∨ c = ['.'] then out
  else if c = ['.', '.'] then
    match out with
    | [] => if rooted then [] else [c]
    | top :: rest => if top = ['.', '.'] then (if rooted then out else c :: out) else rest
  else c :: out

/-- Go `path.Clean` on characters. -/
def cleanChars (p : List Char) : List Char :=
  let rooted : Bool := p.head? = some '/'
  let out := (splitSlash p).foldl (cleanStep rooted) []
  let buf := (if rooted then ['/'] else []) ++ joinSlash out.reverse
  if buf = [] then ['.'] else buf

/-- Go `path.Clean`. -/
def path_Clean (p : String) : String :=
  String.mk (cleanChars p.data)

/-- Go `path.Join`: leading empty elements are skipped, the rest is joined with
slashes and cleaned; the result is empty when every element is empty. -/
def path_Join (elem : List String) : String :=
  match (elem.map String.data).dropWhile (fun e => e.isEmpty) with
  | [] => ""
  | rest => String.mk (cleanChars (joinSlash rest))

/-! ## Filesystem state -/

/-- The path a path text names once the operating system has resolved it: doubled
and trailing slashes, `.` and inner `..` are dropped, as by `path.Clean`.  The
working directory and symbolic links are not modelled, so a relative path stays
apart from every absolute one. -/
def resolve (p : String) : String :=
  path_Clean p

/-- A filesystem state: the existing paths, each a directory (`none`) or a regular
file with its content.  Two path texts name the same entry when they resolve to
the same path, and the first entry for a path is the current one. -/
abbrev FS := List (String × Option String)

/-- The entry a path names, if any. -/
def FS.find (fs : FS) (p : String) : Option (Option String) :=
  (List.find? (fun e => resolve e.1 == resolve p) fs).map (fun e => e.2)

/-- Whether `os.Stat` finds the path; the empty path names nothing. -/
def FS.stat (fs : FS) (p : String) : Bool :=
  p != "" && (fs.find p).isSome

/-- Whether the resolved path `p` lies below the resolved directory `dir`. -/
def isUnder (dir p : String) : Bool :=
  if dir = "." then
    !(p.data.head? = some '/') && p != "." && p != ".." &&
      !(['.', '.', '/'].isPrefixOf p.data)
  else (if dir.data.getLast? = some '/' then dir.data else dir.data ++ ['/']).isPrefixOf p.data

/-- The state after a successful `os.RemoveAll(p)`: the directory the path names
and everything below it are gone, however the path is spelled; the empty path
names nothing and nothing is removed. -/
def FS.removeTree (fs : FS) (p : String) : FS :=
  if p = "" then fs
  else fs.filter (fun e => !(resolve e.1 == resolve p || isUnder (resolve p) (resolve e.1)))

/-- Whether the state holds neither the directory a path names nor anything below
it. -/
def FS.absent (fs : FS) (p : String) : Bool :=
  fs.all (fun e => !(resolve e.1 == resolve p || isUnder (resolve p) (resolve e.1)))

/-- The directory a path names does not exist: `os.Stat` does not find it and, for
a non-empty path, the state holds nothing at or below it. -/
def FS.gone (fs : FS) (p : String) : Prop :=
  fs.stat p = false ∧ (p ≠ "" → fs.absent p = true)

/-- The state after a successful `os.Create(p)` followed by `WriteString(s)`. -/
def FS.writeFile (fs : FS) (p s : String) : FS :=
  (p, some s) :: fs

/-- The text `ioutil.ReadFile(p)` yields with its error dropped: the content of a
regular file, and nothing for a directory or a missing path. -/
def FS.readFile (fs : FS) (p : String) : String :=
  match fs.find p with
  | some (some s) => s
  | _ => ""

/-- Modelled from the spec: `util.FileExists` is not among the sources; it reports
whether the path exists, and no error, on a filesystem state that can be
inspected. -/
def FileExists (fs : FS) (p : String) : Bool × Option GoError :=
  (fs.stat p, none)

/-! ## Source descriptor and path resolution -/

/-- Go `CodeSourceInfo`. -/
structure CodeSourceInfo where
  ServerType : String
  RepositoryURL : String
  Branch : String
  User : String
  Password : String
  TenantID : String
  ServiceID : String
  deriving DecidableEq, Repr

/-- Go `CodeSourceInfo.GetCodeCacheDir`; `getenv` is `os.Getenv`. -/
def CodeSourceInfo.GetCodeCacheDir (getenv : String → String) (c : CodeSourceInfo) : String :=
  let cacheDir := getenv "CACHE_DIR"
  let cacheDir := if cacheDir = "" then "/cache" else cacheDir
  path_Join [cacheDir, "build", c.TenantID, c.ServiceID]

/-- Go package-level `GetCodeSourceDir`. -/
def GetCodeSourceDir (getenv : String → String) (_RepositoryURL _branch tenantID ServiceID : String) :
    String :=
  let sourceDir := getenv "SOURCE_DIR"
  let sourceDir := if sourceDir = "" then "/grdata/source" else sourceDir
  path_Join [sourceDir, "build", tenantID, ServiceID]

/-- Go method `CodeSourceInfo.GetCodeSourceDir`. -/
def CodeSourceInfo.GetCodeSourceDir (getenv : String → String) (c : CodeSourceInfo) : String :=
  Sources.GetCodeSourceDir getenv c.RepositoryURL c.Branch c.TenantID c.ServiceID

/-- Go `GetPrivateFile`; `home` is the value `Home()` returns. -/
def GetPrivateFile (home : String) (fs : FS) (tenantId : String) : String :=
  let home := if home = "" then "/root" else home
  if tenantId = "builder_rsa" then
    if (FileExists fs (path_Join [home, "/.ssh/builder_rsa"])).1 then
      path_Join [home, "/.ssh/builder_rsa"]
    else path_Join [home, "/.ssh/id_rsa"]
  else path_Join [home, "/.ssh/" ++ tenantId]

/-! ## Library values -/

/-- The part of a `transport.Endpoint` the file reads. -/
structure Endpoint where
  Protocol : String
  deriving DecidableEq, Repr

/-- A `transport.AuthMethod` as built by the file: SSH public keys loaded from a
PEM file (with the host-key callback replaced by `InsecureIgnoreHostKey`), or
HTTP basic authentication. -/
inductive AuthMethod where
  | publicKeys (user pemFile : String) (insecureIgnoreHostKey : Bool)
  | basicAuth (Username Password : String)
  deriving DecidableEq, Repr

/-- The writer `createProgress` returns: standard output without a logger, the
relay buffer with one. -/
inductive Progress where
  | stdout
  | buffer
  deriving DecidableEq, Repr

/-- Go `git.TagMode`. -/
inductive TagMode where
  | InvalidTagMode
  | TagFollowing
  | AllTags
  | NoTags
  deriving DecidableEq, Repr

/-- Go `git.NoRecurseSubmodules`. -/
def NoRecurseSubmodules : Nat := 0

/-- Go `git.CloneOptions`, the fields the file sets; an empty `ReferenceName` and
an absent `Auth` are the zero values. -/
structure CloneOptions where
  URL : String
  Auth : Option AuthMethod
  ReferenceName : String
  SingleBranch : Bool
  Depth : Int
  RecurseSubmodules : Nat
  Progress : Progress
  Tags : TagMode
  deriving DecidableEq, Repr

/-- Go `git.PullOptions`, the fields the file sets. -/
structure PullOptions where
  ReferenceName : String
  SingleBranch : Bool
  Depth : Int
  Auth : Option AuthMethod
  Progress : Progress
  deriving DecidableEq, Repr

/-- A `*git.Repository` handle. -/
structure Repository where
  handle : Nat
  deriving DecidableEq, Repr

/-- The client registered for the `https` scheme by `client.InstallProtocol`. -/
inductive HttpsClient where
  | default
  | custom (proxy : Option String) (timeout : Int)
  deriving DecidableEq, Repr

/-- A record handed to the `event.Logger`. -/
structure LogRecord where
  level : String
  message : String
  step : String
  status : String
  deriving DecidableEq, Repr

/-- One call of `git.PlainCloneContext`: its arguments, and what it gave back
(repository, error, and the filesystem it left). -/
structure CloneCall where
  deadline : Int
  path : String
  opts : CloneOptions
  rs : Option Repository
  err : Option GoError
  left : FS
  deriving DecidableEq, Repr

/-- One call of `Worktree.PullContext`: its arguments, and what it gave back
(error, and the filesystem it left). -/
structure PullCall where
  deadline : Int
  repo : Repository
  opts : PullOptions
  err : Option GoError
  left : FS
  deriving DecidableEq, Repr

/-- The calls into the transport, the key store and the filesystem, as made. -/
inductive Call where
  | clone (c : CloneCall)
  | pull (c : PullCall)
  | plainOpen (path : String)
  | loadKey (pemFile : String)
  | removeAll (path : String)
  | generateKey (bits : Nat)
  | create (path : String)
  | writeString (path s : String)
  deriving DecidableEq, Repr

/-- The state of the world: the filesystem, the calls made so far in order, the
records logged so far in order, and the registered `https` client. -/
structure World where
  fs : FS
  calls : List Call
  logs : List LogRecord
  httpsClient : HttpsClient
  deriving DecidableEq, Repr

/-- The environment: configuration, and the library and operating-system calls
whose results the file acts on.  Each may depend on the whole world, and so may
answer differently from one attempt to the next. -/
structure Env where
  /-- The home directory `Home()` returns. -/
  home : String
  /-- Values of `os.Getenv`. -/
  getenv : String → String
  /-- Result of `transport.NewEndpoint`. -/
  NewEndpoint : String → Except GoError Endpoint
  /-- Result of `url.Parse`. -/
  urlParse : String → Except GoError String
  /-- Error of `ssh.NewPublicKeysFromFile(user, pemFile, password)`, if any. -/
  NewPublicKeysFromFile : String → String → String → World → Option GoError
  /-- Result of `git.PlainCloneContext` under a deadline, with the filesystem it
  leaves. -/
  PlainCloneContext : Int → String → CloneOptions → World →
    (Option Repository × Option GoError) × FS
  /-- Result of `git.PlainOpen`. -/
  PlainOpen : String → World → Except GoError Repository
  /-- Error of `Repository.Worktree`, if any. -/
  Worktree : Repository → World → Option GoError
  /-- Error of `Worktree.PullContext` under a deadline, if any, with the
  filesystem it leaves. -/
  PullContext : Int → Repository → PullOptions → World → Option GoError × FS
  /-- When `os.RemoveAll` fails: the error and the filesystem it leaves. -/
  RemoveAllFailure : String → World → Option (GoError × FS)
  /-- When `os.Create` fails: the error. -/
  CreateFailure : String → World → Option GoError
  /-- Result of `rsa.GenerateKey(rand.Reader, bits)`: a private key. -/
  rsaGenerateKey : Nat → World → Except GoError Nat
  /-- PEM text of `x509.MarshalPKCS1PrivateKey` of a private key. -/
  pemPrivateKey : Nat → String
  /-- Result of `ssh.NewPublicKey` and `MarshalAuthorizedKey` on the public half. -/
  sshAuthorizedKey : Nat → Except GoError String

/-- Record a call. -/
def World.call (w : World) (c : Call) : World :=
  { w with calls := w.calls ++ [c] }

/-- Go `logger.Info` or `logger.Error` guarded by `logger != nil`; `logger` tells
whether a logger is present. -/
def World.log (w : World) (logger : Bool) (level message step status : String) : World :=
  if logger then { w with logs := w.logs ++ [⟨level, message, step, status⟩] } else w

/-- Go `logger.Error(message, step callback, status failure)` under `logger != nil`. -/
def World.logFailure (w : World) (logger : Bool) (message : String) : World :=
  w.log logger "error" message "callback" "failure"

/-- Go `os.RemoveAll`: the error, if any, and the world afterwards. -/
def os_RemoveAll (env : Env) (p : String) (w : World) : Option GoError × World :=
  match env.RemoveAllFailure p w with
  | some (e, fs) => (some e, { w with fs := fs, calls := w.calls ++ [.removeAll p] })
  | none => (none, { w with fs := w.fs.removeTree p, calls := w.calls ++ [.removeAll p] })

/-- Go `createProgress`: the relay goroutine is not part of the model, only the
writer returned. -/
def createProgress (logger : Bool) : Progress :=
  if logger then .buffer else .stdout

/-! ## The retry loop -/

/-- The variables of `GitClone` and `GitPull` that live across `goto Loop`. -/
structure LoopVars where
  GetPrivateFileParam : String
  flag : Bool
  timeout : Int
  /-- Whether a deferred `client.InstallProtocol` of the default client is pending. -/
  restoreClient : Bool
  deriving DecidableEq, Repr

/-- The pair `(*git.Repository, error)` a function returns. -/
abbrev GitResult := Option Repository × Option GoError

/-- How one pass from the label `Loop` ends: by `goto Loop` or by `return`. -/
inductive Step where
  | goto (v : LoopVars) (w : World)
  | ret (r : GitResult) (w : World)
  deriving DecidableEq, Repr

/-- The deferred calls, run when the function returns. -/
def runDeferred (v : LoopVars) (w : World) : World :=
  if v.restoreClient then { w with httpsClient := .default } else w

/-- Passes from `Loop` are repeated while they end in `goto Loop`; `none` when the
fuel runs out first. -/
def runLoop (pass : LoopVars → World → Step) : Nat → LoopVars → World → Option (GitResult × World)
  | 0, _, _ => none
  | n + 1, v, w =>
    match pass v w with
    | .ret r w1 => some (r, w1)
    | .goto v1 w1 => runLoop pass n v1 w1

/-! ## `GitClone` -/

/-- The clone options of `GitClone` before authentication is added. -/
def cloneOptions (csi : CodeSourceInfo) (logger : Bool) : CloneOptions :=
  let opts : CloneOptions :=
    { URL := csi.RepositoryURL
      Auth := none
      ReferenceName := ""
      Progress := createProgress logger
      SingleBranch := true
      Tags := .NoTags
      RecurseSubmodules := NoRecurseSubmodules
      Depth := 1 }
  if csi.Branch != "" then { opts with ReferenceName := "refs/heads/" ++ csi.Branch } else opts

/-- The branch `if err != nil` of `GitClone` after the directory removal: the
classification of the clone error. -/
def cloneFailed (csi : CodeSourceInfo) (logger : Bool) (v : LoopVars) (rs : Option Repository)
    (err : GoError) (w : World) : Step :=
  if err = .ErrAuthenticationRequired then
    .ret (rs, some err) (runDeferred v (w.logFailure logger "拉取代码发生错误，代码源需要授权访问。"))
  else if err = .ErrAuthorizationFailed then
    .ret (rs, some err) (runDeferred v (w.logFailure logger "拉取代码发生错误，代码源鉴权失败。"))
  else if err = .ErrRepositoryNotFound then
    .ret (rs, some err) (runDeferred v (w.logFailure logger "拉取代码发生错误，仓库不存在。"))
  else if err = .ErrEmptyRemoteRepository then
    .ret (rs, some err) (runDeferred v (w.logFailure logger "拉取代码发生错误，远程仓库为空。"))
  else if err = .ErrReferenceNotFound then
    .ret (rs, some (.other ("branch " ++ csi.Branch ++ " is not exist")))
      (runDeferred v (w.logFailure logger ("代码分支(" ++ csi.Branch ++ ")不存在。")))
  else if strings_Contains err.Error "ssh: unable to authenticate" then
    if v.flag then
      .goto { v with GetPrivateFileParam := "builder_rsa", flag := false } w
    else
      .ret (rs, some err) (runDeferred v (w.logFailure logger "远程代码库需要配置SSH Key。"))
  else if strings_Contains err.Error "context deadline exceeded" then
    .ret (rs, some err) (runDeferred v (w.logFailure logger "获取代码超时"))
  else .ret (rs, some err) (runDeferred v w)

/-- The call of `git.PlainCloneContext` in `GitClone` and what follows it. -/
def cloneAttempt (env : Env) (csi : CodeSourceInfo) (sourceDir : String) (logger : Bool)
    (v : LoopVars) (opts : CloneOptions) (w : World) : Step :=
  let r := env.PlainCloneContext (minutes v.timeout) sourceDir opts w
  let w1 : World :=
    { w with
      fs := r.2
      calls := w.calls ++ [.clone ⟨minutes v.timeout, sourceDir, opts, r.1.1, r.1.2, r.2⟩] }
  match r.1.2 with
  | none => .ret (r.1.1, none) (runDeferred v w1)
  | some err =>
    let rm := os_RemoveAll env sourceDir w1
    let w2 :=
      if rm.1.isSome then rm.2.logFailure logger "拉取代码发生错误删除代码目录失败。" else rm.2
    cloneFailed csi logger v r.1.1 err w2

/-- The proxy block of `GitClone`: for a GitHub URL with `GITHUB_PROXY` set and
parsing, a proxying client is installed for `https` and its removal deferred. -/
def cloneProxy (env : Env) (csi : CodeSourceInfo) (v : LoopVars) (w : World) : LoopVars × World :=
  if strings_Contains csi.RepositoryURL "github.com" && env.getenv "GITHUB_PROXY" != "" then
    match env.urlParse (env.getenv "GITHUB_PROXY") with
    | .ok proxyURL =>
      ({ v with restoreClient := true },
        { w with httpsClient := .custom (some proxyURL) (minutes v.timeout) })
    | .error _ => (v, w)
  else (v, w)

/-- The HTTP authentication of `GitClone` and `GitPull`: basic authentication when
both user and password are given, none otherwise. -/
def basicAuthOf (csi : CodeSourceInfo) : Option AuthMethod :=
  if csi.User != "" && csi.Password != "" then some (.basicAuth csi.User csi.Password) else none

/-- One pass of `GitClone` from the label `Loop`. -/
def GitClonePass (env : Env) (csi : CodeSourceInfo) (sourceDir : String) (logger : Bool)
    (v : LoopVars) (w : World) : Step :=
  let w := w.log logger "info" ("开始从Git源(" ++ csi.RepositoryURL ++ ")获取代码") "clone_code" ""
  match env.NewEndpoint csi.RepositoryURL with
  | .error err => .ret (none, some err) (runDeferred v w)
  | .ok ep =>
    let v := { v with timeout := if v.timeout < 1 then 1 else v.timeout }
    let opts := cloneOptions csi logger
    if ep.Protocol = "ssh" then
      let publichFile := GetPrivateFile env.home w.fs v.GetPrivateFileParam
      let auerr := env.NewPublicKeysFromFile "git" publichFile "" w
      let w := w.call (.loadKey publichFile)
      match auerr with
      | some auerr => .ret (none, some auerr) (runDeferred v (w.logFailure logger "创建PublicKeys错误"))
      | none =>
        cloneAttempt env csi sourceDir logger v
          { opts with Auth := some (.publicKeys "git" publichFile true) } w
    else
      let vw := cloneProxy env csi v w
      cloneAttempt env csi sourceDir logger vw.1 { opts with Auth := basicAuthOf csi } vw.2

/-- The initial values of the loop variables. -/
def initVars (csi : CodeSourceInfo) (timeout : Int) : LoopVars :=
  { GetPrivateFileParam := csi.TenantID, flag := true, timeout := timeout, restoreClient := false }

/-- Go `GitClone`, run with the given fuel; `logger` tells whether the logger is
non-nil. -/
def GitClone (fuel : Nat) (env : Env) (csi : CodeSourceInfo) (sourceDir : String) (logger : Bool)
    (timeout : Int) (w : World) : Option (GitResult × World) :=
  runLoop (GitClonePass env csi sourceDir logger) fuel (initVars csi timeout) w

/-! ## `GitPull` -/

/-- The pull options of `GitPull` before authentication is added. -/
def pullOptions (csi : CodeSourceInfo) (logger : Bool) : PullOptions :=
  let opts : PullOptions :=
    { Progress := createProgress logger
      SingleBranch := true
      Depth := 1
      ReferenceName := ""
      Auth := none }
  if csi.Branch != "" then { opts with ReferenceName := "refs/heads/" ++ csi.Branch } else opts

/-- The branch `if err != nil` of `GitPull`: the classification of the pull error. -/
def pullFailed (csi : CodeSourceInfo) (logger : Bool) (v : LoopVars) (rs : Repository)
    (err : GoError) (w : World) : Step :=
  if err = .ErrAuthenticationRequired then
    .ret (some rs, some err) (runDeferred v (w.logFailure logger "更新代码发生错误，代码源需要授权访问。"))
  else if err = .ErrAuthorizationFailed then
    .ret (some rs, some err) (runDeferred v (w.logFailure logger "更新代码发生错误，代码源鉴权失败。"))
  else if err = .ErrRepositoryNotFound then
    .ret (some rs, some err) (runDeferred v (w.logFailure logger "更新代码发生错误，仓库不存在。"))
  else if err = .ErrEmptyRemoteRepository then
    .ret (some rs, some err) (runDeferred v (w.logFailure logger "更新代码发生错误，远程仓库为空。"))
  else if err = .ErrReferenceNotFound then
    .ret (some rs, some (.other ("branch " ++ csi.Branch ++ " is not exist")))
      (runDeferred v (w.logFailure logger ("代码分支(" ++ csi.Branch ++ ")不存在。")))
  else if strings_Contains err.Error "ssh: unable to authenticate" then
    if v.flag then
      .goto { v with GetPrivateFileParam := "builder_rsa", flag := false } w
    else
      .ret (some rs, some err) (runDeferred v (w.logFailure logger "远程代码库需要配置SSH Key。"))
  else if strings_Contains err.Error "context deadline exceeded" then
    .ret (some rs, some err) (runDeferred v (w.logFailure logger "更新代码超时"))
  else if err = .NoErrAlreadyUpToDate then
    .ret (some rs, none) (runDeferred v w)
  else .ret (some rs, some err) (runDeferred v w)

/-- The part of `GitPull` from `git.PlainOpen` on. -/
def pullAttempt (env : Env) (csi : CodeSourceInfo) (sourceDir : String) (logger : Bool)
    (v : LoopVars) (opts : PullOptions) (w : World) : Step :=
  let opened := env.PlainOpen sourceDir w
  let w := w.call (.plainOpen sourceDir)
  match opened with
  | .error err => .ret (none, some err) (runDeferred v w)
  | .ok rs =>
    match env.Worktree rs w with
    | some err => .ret (none, some err) (runDeferred v w)
    | none =>
      let r := env.PullContext (minutes v.timeout) rs opts w
      let w1 : World :=
        { w with
          fs := r.2
          calls := w.calls ++ [.pull ⟨minutes v.timeout, rs, opts, r.1, r.2⟩] }
      match r.1 with
      | none => .ret (some rs, none) (runDeferred v w1)
      | some err => pullFailed csi logger v rs err w1

/-- The proxy block of `GitPull`: as in `GitClone`, but the result of `url.Parse`
is used whether or not it failed. -/
def pullProxy (env : Env) (csi : CodeSourceInfo) (v : LoopVars) (w : World) : LoopVars × World :=
  if strings_Contains csi.RepositoryURL "github.com" && env.getenv "GITHUB_PROXY" != "" then
    ({ v with restoreClient := true },
      { w with httpsClient :=
          .custom (env.urlParse (env.getenv "GITHUB_PROXY")).toOption (minutes v.timeout) })
  else (v, w)

/-- One pass of `GitPull` from the label `Loop`. -/
def GitPullPass (env : Env) (csi : CodeSourceInfo) (sourceDir : String) (logger : Bool)
    (v : LoopVars) (w : World) : Step :=
  let w := w.log logger "info" ("开始从Git源(" ++ csi.RepositoryURL ++ ")更新代码") "clone_code" ""
  let v := { v with timeout := if v.timeout < 1 then 1 else v.timeout }
  let opts := pullOptions csi logger
  match env.NewEndpoint csi.RepositoryURL with
  | .error err => .ret (none, some err) (runDeferred v w)
  | .ok ep =>
    if ep.Protocol = "ssh" then
      let publichFile := GetPrivateFile env.home w.fs v.GetPrivateFileParam
      let auerr := env.NewPublicKeysFromFile "git" publichFile "" w
      let w := w.call (.loadKey publichFile)
      match auerr with
      | some auerr => .ret (none, some auerr) (runDeferred v (w.logFailure logger "创建PublicKeys错误"))
      | none =>
        pullAttempt env csi sourceDir logger v
          { opts with Auth := some (.publicKeys "git" publichFile true) } w
    else
      let vw := pullProxy env csi v w
      pullAttempt env csi sourceDir logger vw.1 { opts with Auth := basicAuthOf csi } vw.2

/-- Go `GitPull`, run with the given fuel. -/
def GitPull (fuel : Nat) (env : Env) (csi : CodeSourceInfo) (sourceDir : String) (logger : Bool)
    (timeout : Int) (w : World) : Option (GitResult × World) :=
  runLoop (GitPullPass env csi sourceDir logger) fuel (initVars csi timeout) w

/-! ## `GitCloneOrPull` -/

/-- How a call of `GitCloneOrPull` ends: with a result, or in the nil dereference of
`err.Error()` when `GitPull` hands back neither a repository nor an error. -/
inductive Outcome where
  | returned (r : GitResult) (w : World)
  | panicked (w : World)
  deriving DecidableEq, Repr

/-- The tail of `GitCloneOrPull`: empty the directory, then clone. -/
def emptyAndClone (fuel : Nat) (env : Env) (csi : CodeSourceInfo) (sourceDir : String)
    (logger : Bool) (timeout : Int) (w : World) : Option Outcome :=
  let rm := os_RemoveAll env sourceDir w
  let w1 := if rm.1.isSome then rm.2.logFailure logger "清空代码目录失败。" else rm.2
  (GitClone fuel env csi sourceDir logger timeout w1).map (fun r => .returned r.1 r.2)

/-- Go `GitCloneOrPull`, run with the given fuel for each of the two loops. -/
def GitCloneOrPull (fuel : Nat) (env : Env) (csi : CodeSourceInfo) (sourceDir : String)
    (logger : Bool) (timeout : Int) (w : World) : Option Outcome :=
  let found := FileExists w.fs (path_Join [sourceDir, ".git"])
  if found.2 = none ∧ found.1 = true then
    match GitPull fuel env csi sourceDir logger timeout w with
    | none => none
    | some ((re, err), w1) =>
      if err = none ∧ re ≠ none then some (.returned (re, none) w1)
      else
        match err with
        | none => some (.panicked w1)
        | some _ => emptyAndClone fuel env csi sourceDir logger timeout w1
  else emptyAndClone fuel env csi sourceDir logger timeout w

/-! ## Key provisioning -/

/-- Go `GenerateKey`: the private key (the public key is its public half). -/
def GenerateKey (env : Env) (bits : Nat) (w : World) : Except GoError Nat × World :=
  (env.rsaGenerateKey bits w, w.call (.generateKey bits))

/-- Go `EncodePrivateKey`. -/
def EncodePrivateKey (env : Env) (key : Nat) : String :=
  env.pemPrivateKey key

/-- Go `EncodeSSHKey`. -/
def EncodeSSHKey (env : Env) (key : Nat) : Except GoError String :=
  env.sshAuthorizedKey key

/-- Go `MakeSSHKeyPair`: private text, public text and error. -/
def MakeSSHKeyPair (env : Env) (w : World) : (String × String × Option GoError) × World :=
  match GenerateKey env 2048 w with
  | (.error err, w1) => (("", "", some err), w1)
  | (.ok pkey, w1) =>
    match EncodeSSHKey env pkey with
    | .error err => (("", "", some err), w1)
    | .ok pub => ((EncodePrivateKey env pkey, pub, none), w1)

/-- Go `os.Create(p)` followed, when it succeeds, by `WriteString(s)` on the file. -/
def createAndWrite (env : Env) (p s : String) (w : World) : World :=
  match env.CreateFailure p w with
  | some _ => w.call (.create p)
  | none =>
    { w with fs := w.fs.writeFile p s, calls := w.calls ++ [.create p, .writeString p s] }

/-- Go `GetPublicKey`: the text returned and the world afterwards. -/
def GetPublicKey (env : Env) (tenantId : String) (w : World) : String × World :=
  let home := if env.home = "" then "/root" else env.home
  let PublicKey := tenantId ++ ".pub"
  let PrivateKey := tenantId
  if (FileExists w.fs (path_Join [home, "/.ssh/" ++ PublicKey])).1 then
    (w.fs.readFile (path_Join [home, "/.ssh/" ++ PublicKey]), w)
  else
    let made := MakeSSHKeyPair env w
    let w1 := createAndWrite env (path_Join [home, "/.ssh/" ++ PrivateKey]) made.1.1 made.2
    let w2 := createAndWrite env (path_Join [home, "/.ssh/" ++ PublicKey]) made.1.2.1 w1
    (w2.fs.readFile (path_Join [home, "/.ssh/" ++ PublicKey]), w2)

/-! ## Observations on a run -/

/-- The clone attempts among the calls, in order. -/
def cloneCalls (cs : List Call) : List CloneCall :=
  cs.filterMap (fun c => match c with
    | .clone c => some c
    | _ => none)

/-- The pull attempts among the calls, in order. -/
def pullCalls (cs : List Call) : List PullCall :=
  cs.filterMap (fun c => match c with
    | .pull c => some c
    | _ => none)

/-- The number of transport attempts (clones and pulls) among the calls. -/
def transportAttempts (cs : List Call) : Nat :=
  (cloneCalls cs).length + (pullCalls cs).length

/-- The directory removals among the calls, in order. -/
def removals (cs : List Call) : List String :=
  cs.filterMap (fun c => match c with
    | .removeAll p => some p
    | _ => none)

/-- The key generations and file creations among the calls. -/
def keyWrites (cs : List Call) : List Call :=
  cs.filter (fun c => match c with
    | .generateKey _ => true
    | .create _ => true
    | .writeString _ _ => true
    | _ => false)

/-! ## Vocabulary of the statements and sample data -/

/-- Whether an error carries the text by which the file recognises a rejected SSH
authentication. -/
def sshRejected (e : GoError) : Bool :=
  strings_Contains e.Error "ssh: unable to authenticate"

/-- The error handed to the caller for a transport error that ends the call: the
error itself, except that a missing reference is reported by branch name. -/
def handedBack (csi : CodeSourceInfo) (e : GoError) : GoError :=
  if e = .ErrReferenceNotFound then .other ("branch " ++ csi.Branch ++ " is not exist") else e

/-- What every clone attempt of a call of `GitClone` asks for, and that its recorded
error is the one the transport gave for these arguments. -/
def goodClone (env : Env) (csi : CodeSourceInfo) (sourceDir : String) (timeout : Int)
    (c : CloneCall) : Prop :=
  c.deadline = minutes (max timeout 1) ∧ c.path = sourceDir ∧ c.opts.URL = csi.RepositoryURL ∧
    c.opts.Depth = 1 ∧ c.opts.SingleBranch = true ∧ c.opts.Tags = .NoTags ∧
    c.opts.RecurseSubmodules = NoRecurseSubmodules ∧
    c.opts.ReferenceName = (if csi.Branch = "" then "" else "refs/heads/" ++ csi.Branch) ∧
    ∃ wx, c.err = (env.PlainCloneContext c.deadline c.path c.opts wx).1.2

/-- What every pull attempt of a call of `GitPull` asks for, and that its recorded
error is the one the transport gave for these arguments. -/
def goodPull (env : Env) (csi : CodeSourceInfo) (timeout : Int) (c : PullCall) : Prop :=
  c.deadline = minutes (max timeout 1) ∧ c.opts.Depth = 1 ∧ c.opts.SingleBranch = true ∧
    c.opts.ReferenceName = (if csi.Branch = "" then "" else "refs/heads/" ++ csi.Branch) ∧
    ∃ wx, c.err = (env.PullContext c.deadline c.repo c.opts wx).1

/-- What one clone attempt does, seen from the call log and the filesystem. -/
def CloneAttemptSpec (env : Env) (csi : CodeSourceInfo) (dir : String) (v : LoopVars)
    (w : World) (c : CloneCall) (w1 : World) (s : Step) : Prop :=
  cloneCalls w1.calls = cloneCalls w.calls ++ [c] ∧ pullCalls w1.calls = pullCalls w.calls ∧
    ((c.err = none ∧ s = .ret (c.rs, none) w1 ∧ w1.fs = c.left ∧
        removals w1.calls = removals w.calls) ∨
      (∃ e, c.err = some e ∧ removals w1.calls = removals w.calls ++ [dir] ∧
        ((∀ wx, env.RemoveAllFailure dir wx = none) → w1.fs.gone dir) ∧
        ((sshRejected e = true ∧ v.flag = true ∧
            s = .goto { v with GetPrivateFileParam := "builder_rsa", flag := false } w1) ∨
          ((sshRejected e = false ∨ v.flag = false) ∧
            s = .ret (c.rs, some (handedBack csi e)) w1))))

/-- What one pass of `GitClone` does: it returns an error before any attempt (the
URL did not parse, or the key of an SSH endpoint did not load), leaving filesystem
and call log as they were, or makes one clone attempt. -/
def ClonePassSpec (env : Env) (csi : CodeSourceInfo) (dir : String) (v : LoopVars) (w : World)
    (s : Step) : Prop :=
  (∃ e w1, s = .ret (none, some e) w1 ∧ w1.fs = w.fs ∧ cloneCalls w1.calls = cloneCalls w.calls ∧
      pullCalls w1.calls = pullCalls w.calls ∧ removals w1.calls = removals w.calls ∧
      (env.NewEndpoint csi.RepositoryURL = .error e ∨
        ∃ ep f wx, env.NewEndpoint csi.RepositoryURL = .ok ep ∧ ep.Protocol = "ssh" ∧
          env.NewPublicKeysFromFile "git" f "" wx = some e)) ∨
    (∃ c w1 v1, goodClone env csi dir v.timeout c ∧ v1.flag = v.flag ∧ v1.timeout = max v.timeout 1 ∧
      CloneAttemptSpec env csi dir v1 w c w1 s)

/-- What a call of `GitClone` does, seen from its result `r`, the world `w1` it
leaves and the clone attempts `new` it made: no attempt and an error; one attempt
that succeeded; one attempt failing with an error that ends the call; one
rejected attempt followed by a second pass that fails before cloning; or a
rejected attempt followed by a second attempt, successful or not. -/
def CloneRunSpec (env : Env) (csi : CodeSourceInfo) (dir : String) (timeout : Int) (w : World)
    (r : GitResult) (w1 : World) (new : List CloneCall) : Prop :=
  cloneCalls w1.calls = cloneCalls w.calls ++ new ∧ pullCalls w1.calls = pullCalls w.calls ∧
    (∀ c ∈ new, goodClone env csi dir timeout c) ∧
    ((new = [] ∧ r.1 = none ∧ r.2 ≠ none ∧ w1.fs = w.fs ∧ removals w1.calls = removals w.calls ∧
        ∃ e, r.2 = some e ∧
          (env.NewEndpoint csi.RepositoryURL = .error e ∨
            ∃ ep f wx, env.NewEndpoint csi.RepositoryURL = .ok ep ∧ ep.Protocol = "ssh" ∧
              env.NewPublicKeysFromFile "git" f "" wx = some e)) ∨
      (∃ c, new = [c] ∧ c.err = none ∧ r = (c.rs, none) ∧ w1.fs = c.left ∧
        removals w1.calls = removals w.calls) ∨
      (∃ c e, new = [c] ∧ c.err = some e ∧ sshRejected e = false ∧
        r = (c.rs, some (handedBack csi e)) ∧
        ((∀ wx, env.RemoveAllFailure dir wx = none) → w1.fs.gone dir)) ∨
      (∃ c e e2, new = [c] ∧ c.err = some e ∧ sshRejected e = true ∧ r = (none, some e2) ∧
        ((∀ wx, env.RemoveAllFailure dir wx = none) → w1.fs.gone dir)) ∨
      (∃ c1 c2 e1, new = [c1, c2] ∧ c1.err = some e1 ∧ sshRejected e1 = true ∧ c2.err = none ∧
        r = (c2.rs, none) ∧ w1.fs = c2.left) ∨
      (∃ c1 c2 e1 e2, new = [c1, c2] ∧ c1.err = some e1 ∧ sshRejected e1 = true ∧
        c2.err = some e2 ∧ r = (c2.rs, some (handedBack csi e2)) ∧
        ((∀ wx, env.RemoveAllFailure dir wx = none) → w1.fs.gone dir)))

/-- What one pass of `GitPull`, or its part from `git.PlainOpen` on, does: it
returns an error before any attempt, leaving filesystem and call log as they were,
or makes one pull attempt, after which the filesystem is the one the attempt
left.  `P` describes the attempt and `G` the loop variables after a jump. -/
def PullCore (csi : CodeSourceInfo) (flag : Bool) (w : World) (s : Step) (P : PullCall → Prop)
    (G : LoopVars → Prop) : Prop :=
  (∃ e w1, s = .ret (none, some e) w1 ∧ w1.fs = w.fs ∧ pullCalls w1.calls = pullCalls w.calls ∧
      cloneCalls w1.calls = cloneCalls w.calls ∧ removals w1.calls = removals w.calls) ∨
    (∃ c w1, P c ∧ pullCalls w1.calls = pullCalls w.calls ++ [c] ∧
      cloneCalls w1.calls = cloneCalls w.calls ∧ removals w1.calls = removals w.calls ∧
      w1.fs = c.left ∧
      (((c.err = none ∨ c.err = some .NoErrAlreadyUpToDate) ∧ s = .ret (some c.repo, none) w1) ∨
        (∃ e, c.err = some e ∧ e ≠ .NoErrAlreadyUpToDate ∧
          ((sshRejected e = true ∧ flag = true ∧ ∃ v1, s = .goto v1 w1 ∧ G v1) ∨
            ((sshRejected e = false ∨ flag = false) ∧
              s = .ret (some c.repo, some (handedBack csi e)) w1)))))

/-- What a call of `GitPull` does, seen from its result `r`, the world `w1` it
leaves and the pull attempts `new` it made.  It never clones and never removes. -/
def PullRunSpec (env : Env) (csi : CodeSourceInfo) (timeout : Int) (w : World) (r : GitResult)
    (w1 : World)
    (new : List PullCall) : Prop :=
  pullCalls w1.calls = pullCalls w.calls ++ new ∧ cloneCalls w1.calls = cloneCalls w.calls ∧
    removals w1.calls = removals w.calls ∧ (∀ c ∈ new, goodPull env csi timeout c) ∧
    ((new = [] ∧ r.1 = none ∧ r.2 ≠ none ∧ w1.fs = w.fs) ∨
      (∃ c, new = [c] ∧ (c.err = none ∨ c.err = some .NoErrAlreadyUpToDate) ∧
        r = (some c.repo, none) ∧ w1.fs = c.left) ∨
      (∃ c e, new = [c] ∧ c.err = some e ∧ e ≠ .NoErrAlreadyUpToDate ∧ sshRejected e = false ∧
        r = (some c.repo, some (handedBack csi e)) ∧ w1.fs = c.left) ∨
      (∃ c e e2, new = [c] ∧ c.err = some e ∧ sshRejected e = true ∧ r = (none, some e2) ∧
        w1.fs = c.left) ∨
      (∃ c1 c2 e1, new = [c1, c2] ∧ c1.err = some e1 ∧ sshRejected e1 = true ∧
        (c2.err = none ∨ c2.err = some .NoErrAlreadyUpToDate) ∧ r = (some c2.repo, none) ∧
        w1.fs = c2.left) ∨
      (∃ c1 c2 e1 e2, new = [c1, c2] ∧ c1.err = some e1 ∧ sshRejected e1 = true ∧
        c2.err = some e2 ∧ e2 ≠ .NoErrAlreadyUpToDate ∧
        r = (some c2.repo, some (handedBack csi e2)) ∧ w1.fs = c2.left))

/-- An identifier that is a single ordinary path element: not empty, without a
slash, and neither `.` nor `..`. -/
def validID (x : String) : Prop :=
  x.data ≠ [] ∧ '/' ∉ x.data ∧ x.data ≠ ['.'] ∧ x.data ≠ ['.', '.']

instance (x : String) : Decidable (validID x) := by
  unfold validID; infer_instance

/-- The cleaned text of `root/build`, to which the identifiers are appended. -/
def buildBase (root : List Char) : List Char :=
  (if root.head? = some '/' then ['/'] else []) ++
    joinSlash (((splitSlash root).foldl (cleanStep (root.head? = some '/')) []).reverse ++
      [['b', 'u', 'i', 'l', 'd']])

/-- A world with an empty filesystem and nothing logged. -/
def World.blank : World :=
  { fs := [], calls := [], logs := [], httpsClient := .default }

/-- A sample environment.  Home is `/root` and no environment variable is set; a
URL with a blank does not parse, `ssh://` and `git@` URLs are SSH endpoints and
the rest HTTPS; a key loads when its file exists.  A clone fails with
"repository already exists" when the destination holds a `.git` entry, and
otherwise gives the result `clone n` on transport attempt `n`, leaving the
directory behind, with a `.git` entry on success.  A pull gives `pull n` and
leaves the filesystem alone.  Removal fails when `rmFail` is set and file
creation fails on the paths selected by `createFail`.  Each generated key is
new. -/
def sampleEnv (clone pull : Nat → Option GoError) (rmFail : Bool) (createFail : String → Bool) :
    Env :=
  { home := "/root"
    getenv := fun _ => ""
    NewEndpoint := fun url =>
      if strings_Contains url " " then .error (.other "invalid endpoint")
      else if strings_Contains url "ssh://" || strings_Contains url "git@" then .ok ⟨"ssh"⟩
      else .ok ⟨"https"⟩
    urlParse := fun u => .ok u
    NewPublicKeysFromFile := fun _ f _ w =>
      if w.fs.stat f then none else some (.other ("open " ++ f ++ ": no such file or directory"))
    PlainCloneContext := fun _ dir _ w =>
      if w.fs.stat (path_Join [dir, ".git"]) then
        ((none, some (.other "repository already exists")), w.fs)
      else
        match clone (transportAttempts w.calls) with
        | none => ((some ⟨1⟩, none), (path_Join [dir, ".git"], none) :: (dir, none) :: w.fs)
        | some e => ((none, some e), (dir, none) :: w.fs)
    PlainOpen := fun dir w =>
      if w.fs.stat (path_Join [dir, ".git"]) then .ok ⟨2⟩
      else .error (.other "repository does not exist")
    Worktree := fun _ _ => none
    PullContext := fun _ _ _ w => (pull (transportAttempts w.calls), w.fs)
    RemoveAllFailure := fun _ w => if rmFail then some (.other "permission denied", w.fs) else none
    CreateFailure := fun p _ => if createFail p then some (.other "permission denied") else none
    rsaGenerateKey := fun _ w => .ok w.calls.length
    pemPrivateKey := fun k => "RSA PRIVATE KEY " ++ String.mk (List.replicate k 'k')
    sshAuthorizedKey := fun k => .ok ("ssh-rsa " ++ String.mk (List.replicate k 'k')) }

/-- A descriptor of an HTTPS repository on branch `master`. -/
def csiHttps : CodeSourceInfo :=
  { ServerType := "git", RepositoryURL := "https://example.com/acme/app.git", Branch := "master",
    User := "", Password := "", TenantID := "tenant1", ServiceID := "service1" }

/-- A descriptor of an SSH repository with no branch named. -/
def csiSsh : CodeSourceInfo :=
  { ServerType := "git", RepositoryURL := "git@example.com:acme/app.git", Branch := "",
    User := "", Password := "", TenantID := "tenant1", ServiceID := "service1" }

/-- A world whose destination `/src` holds a repository and whose key directory
holds the tenant key and the shared key. -/
def World.cloned : World :=
  { World.blank with
    fs := [("/src", none), ("/src/.git", none), ("/root/.ssh/tenant1", some "key1"),
      ("/root/.ssh/builder_rsa", some "key2")] }

/-- A sample environment for the fallback retry: keys always load, the first clone
attempt is rejected by the SSH server and every later one succeeds. -/
def retryEnv : Env :=
  { sampleEnv (fun _ => none) (fun _ => none) false (fun _ => false) with
    NewPublicKeysFromFile := fun _ _ _ _ => none
    PlainCloneContext := fun _ dir _ w =>
      if (cloneCalls w.calls).length = 0 then
        ((none, some (.other
          "ssh: handshake failed: ssh: unable to authenticate, attempted methods [none publickey]")),
          (dir, none) :: w.fs)
      else ((some ⟨1⟩, none), (path_Join [dir, ".git"], none) :: (dir, none) :: w.fs) }

/-- The result of a call that returned. -/
def Outcome.result : Outcome → Option GitResult
  | .returned r _ => some r
  | .panicked _ => none

/-- The world a call leaves. -/
def Outcome.world : Outcome → World
  | .returned _ w => w
  | .panicked w => w

/-! # Theorems -/

/-! ## Basic facts -/

@[simp] theorem cloneCalls_append (a b : List Call) :
    cloneCalls (a ++ b) = cloneCalls a ++ cloneCalls b := by
  simp [cloneCalls, List.filterMap_append]

@[simp] theorem pullCalls_append (a b : List Call) :
    pullCalls (a ++ b) = pullCalls a ++ pullCalls b := by
  simp [pullCalls, List.filterMap_append]

@[simp] theorem removals_append (a b : List Call) :
    removals (a ++ b) = removals a ++ removals b := by
  simp [removals, List.filterMap_append]

@[simp] theorem keyWrites_append (a b : List Call) :
    keyWrites (a ++ b) = keyWrites a ++ keyWrites b := by
  simp [keyWrites]

@[simp] theorem cloneCalls_nil : cloneCalls [] = [] := rfl

@[simp] theorem cloneCalls_cons_clone (c : CloneCall) (cs : List Call) :
    cloneCalls (.clone c :: cs) = c :: cloneCalls cs := rfl

@[simp] theorem cloneCalls_cons_pull (c : PullCall) (cs : List Call) :
    cloneCalls (.pull c :: cs) = cloneCalls cs := rfl

@[simp] theorem cloneCalls_cons_plainOpen (p : String) (cs : List Call) :
    cloneCalls (.plainOpen p :: cs) = cloneCalls cs := rfl

@[simp] theorem cloneCalls_cons_loadKey (p : String) (cs : List Call) :
    cloneCalls (.loadKey p :: cs) = cloneCalls cs := rfl

@[simp] theorem cloneCalls_cons_removeAll (p : String) (cs : List Call) :
    cloneCalls (.removeAll p :: cs) = cloneCalls cs := rfl

@[simp] theorem cloneCalls_cons_generateKey (n : Nat) (cs : List Call) :
    cloneCalls (.generateKey n :: cs) = cloneCalls cs := rfl

@[simp] theorem cloneCalls_cons_create (p : String) (cs : List Call) :
    cloneCalls (.create p :: cs) = cloneCalls cs := rfl

@[simp] theorem cloneCalls_cons_writeString (p t : String) (cs : List Call) :
    cloneCalls (.writeString p t :: cs) = cloneCalls cs := rfl

@[simp] theorem pullCalls_nil : pullCalls [] = [] := rfl

@[simp] theorem pullCalls_cons_clone (c : CloneCall) (cs : List Call) :
    pullCalls (.clone c :: cs) = pullCalls cs := rfl

@[simp] theorem pullCalls_cons_pull (c : PullCall) (cs : List Call) :
    pullCalls (.pull c :: cs) = c :: pullCalls cs := rfl

@[simp] theorem pullCalls_cons_plainOpen (p : String) (cs : List Call) :
    pullCalls (.plainOpen p :: cs) = pullCalls cs := rfl

@[simp] theorem pullCalls_cons_loadKey (p : String) (cs : List Call) :
    pullCalls (.loadKey p :: cs) = pullCalls cs := rfl

@[simp] theorem pullCalls_cons_removeAll (p : String) (cs : List Call) :
    pullCalls (.removeAll p :: cs) = pullCalls cs := rfl

@[simp] theorem pullCalls_cons_generateKey (n : Nat) (cs : List Call) :
    pullCalls (.generateKey n :: cs) = pullCalls cs := rfl

@[simp] theorem pullCalls_cons_create (p : String) (cs : List Call) :
    pullCalls (.create p :: cs) = pullCalls cs := rfl

@[simp] theorem pullCalls_cons_writeString (p t : String) (cs : List Call) :
    pullCalls (.writeString p t :: cs) = pullCalls cs := rfl

@[simp] theorem removals_nil : removals [] = [] := rfl

@[simp] theorem removals_cons_clone (c : CloneCall) (cs : List Call) :
    removals (.clone c :: cs) = removals cs := rfl

@[simp] theorem removals_cons_pull (c : PullCall) (cs : List Call) :
    removals (.pull c :: cs) = removals cs := rfl

@[simp] theorem removals_cons_plainOpen (p : String) (cs : List Call) :
    removals (.plainOpen p :: cs) = removals cs := rfl

@[simp] theorem removals_cons_loadKey (p : String) (cs : List Call) :
    removals (.loadKey p :: cs) = removals cs := rfl

@[simp] theorem removals_cons_removeAll (p : String) (cs : List Call) :
    removals (.removeAll p :: cs) = p :: removals cs := rfl

@[simp] theorem removals_cons_generateKey (n : Nat) (cs : List Call) :
    removals (.generateKey n :: cs) = removals cs := rfl

@[simp] theorem removals_cons_create (p : String) (cs : List Call) :
    removals (.create p :: cs) = removals cs := rfl

@[simp] theorem removals_cons_writeString (p t : String) (cs : List Call) :
    removals (.writeString p t :: cs) = removals cs := rfl

@[simp] theorem keyWrites_nil : keyWrites [] = [] := rfl

@[simp] theorem keyWrites_cons_clone (c : CloneCall) (cs : List Call) :
    keyWrites (.clone c :: cs) = keyWrites cs := rfl

@[simp] theorem keyWrites_cons_pull (c : PullCall) (cs : List Call) :
    keyWrites (.pull c :: cs) = keyWrites cs := rfl

@[simp] theorem keyWrites_cons_plainOpen (p : String) (cs : List Call) :
    keyWrites (.plainOpen p :: cs) = keyWrites cs := rfl

@[simp] theorem keyWrites_cons_loadKey (p : String) (cs : List Call) :
    keyWrites (.loadKey p :: cs) = keyWrites cs := rfl

@[simp] theorem keyWrites_cons_removeAll (p : String) (cs : List Call) :
    keyWrites (.removeAll p :: cs) = keyWrites cs := rfl

@[simp] theorem keyWrites_cons_generateKey (n : Nat) (cs : List Call) :
    keyWrites (.generateKey n :: cs) = .generateKey n :: keyWrites cs := rfl

@[simp] theorem keyWrites_cons_create (p : String) (cs : List Call) :
    keyWrites (.create p :: cs) = .create p :: keyWrites cs := rfl

@[simp] theorem keyWrites_cons_writeString (p t : String) (cs : List Call) :
    keyWrites (.writeString p t :: cs) = .writeString p t :: keyWrites cs := rfl

@[simp] theorem log_fs (w : World) (l : Bool) (a b c d : String) : (w.log l a b c d).fs = w.fs := by
  unfold World.log; split <;> rfl

@[simp] theorem log_calls (w : World) (l : Bool) (a b c d : String) :
    (w.log l a b c d).calls = w.calls := by
  unfold World.log; split <;> rfl

@[simp] theorem logFailure_fs (w : World) (l : Bool) (m : String) : (w.logFailure l m).fs = w.fs := by
  simp [World.logFailure]

@[simp] theorem logFailure_calls (w : World) (l : Bool) (m : String) :
    (w.logFailure l m).calls = w.calls := by
  simp [World.logFailure]

@[simp] theorem runDeferred_fs (v : LoopVars) (w : World) : (runDeferred v w).fs = w.fs := by
  unfold runDeferred; split <;> rfl

@[simp] theorem runDeferred_calls (v : LoopVars) (w : World) :
    (runDeferred v w).calls = w.calls := by
  unfold runDeferred; split <;> rfl

@[simp] theorem call_fs (w : World) (c : Call) : (w.call c).fs = w.fs := rfl

@[simp] theorem call_calls (w : World) (c : Call) : (w.call c).calls = w.calls ++ [c] := rfl

theorem clamp_eq_max (t : Int) : (if t < 1 then 1 else t) = max t 1 := by
  split <;> omega

/-- An error with the rejection text is none of the sentinel values. -/
theorem sshRejected_other (e : GoError) (h : sshRejected e = true) : ∃ t, e = .other t := by
  cases e with
  | other t => exact ⟨t, rfl⟩
  | _ => exact absurd h (by decide)

theorem upToDate_text_ssh :
    strings_Contains "already up-to-date" "ssh: unable to authenticate" = false := by decide

theorem upToDate_text_deadline :
    strings_Contains "already up-to-date" "context deadline exceeded" = false := by decide

theorem handedBack_of_sshRejected (csi : CodeSourceInfo) (e : GoError) (h : sshRejected e = true) :
    handedBack csi e = e := by
  obtain ⟨t, rfl⟩ := sshRejected_other e h
  simp [handedBack]

theorem find_removeTree (fs : FS) (p : String) (hp : p ≠ "") : (fs.removeTree p).find p = none := by
  unfold FS.removeTree FS.find
  rw [if_neg hp]
  have h : List.find? (fun e => resolve e.1 == resolve p)
      (List.filter (fun e => !(resolve e.1 == resolve p || isUnder (resolve p) (resolve e.1))) fs) =
      none := by
    rw [List.find?_eq_none]
    intro x hx
    rw [List.mem_filter] at hx
    have h2 := hx.2
    simp only [Bool.not_eq_true', Bool.or_eq_false_iff] at h2
    simp [h2.1]
  rw [h]
  rfl

/-- After a successful removal the path is gone. -/
theorem stat_removeTree (fs : FS) (p : String) : (fs.removeTree p).stat p = false := by
  unfold FS.stat
  by_cases hp : p = ""
  · simp [hp]
  · rw [find_removeTree fs p hp]
    simp

theorem absent_removeTree (fs : FS) (p : String) (hp : p ≠ "") :
    (fs.removeTree p).absent p = true := by
  unfold FS.removeTree FS.absent
  rw [if_neg hp, List.all_eq_true]
  intro x hx
  rw [List.mem_filter] at hx
  exact hx.2

/-- After a successful removal the directory and all below it are gone. -/
theorem gone_removeTree (fs : FS) (p : String) : (fs.removeTree p).gone p :=
  ⟨stat_removeTree fs p, absent_removeTree fs p⟩

/-- The classification of a clone error either jumps back to `Loop` (first pass,
rejected SSH authentication) or returns the error, touching neither the
filesystem nor the call log. -/
theorem cloneFailed_spec (csi : CodeSourceInfo) (logger : Bool) (v : LoopVars)
    (rs : Option Repository) (err : GoError) (w : World) :
    (sshRejected err = true ∧ v.flag = true ∧
      cloneFailed csi logger v rs err w =
        .goto { v with GetPrivateFileParam := "builder_rsa", flag := false } w) ∨
    ((sshRejected err = false ∨ v.flag = false) ∧
      ∃ w1, cloneFailed csi logger v rs err w = .ret (rs, some (handedBack csi err)) w1 ∧
        w1.fs = w.fs ∧ w1.calls = w.calls) := by
  cases err with
  | other t =>
    by_cases hs : sshRejected (.other t) = true
    · by_cases hf : v.flag = true
      · left
        refine ⟨hs, hf, ?_⟩
        simp only [sshRejected, GoError.Error] at hs
        simp [cloneFailed, GoError.Error, hs, hf]
      · right
        refine ⟨Or.inr (by simpa using hf), ?_⟩
        simp only [sshRejected, GoError.Error] at hs
        simp [cloneFailed, GoError.Error, hs, hf, handedBack]
    · right
      refine ⟨Or.inl (by simpa using hs), ?_⟩
      simp only [sshRejected, GoError.Error] at hs
      by_cases hd : strings_Contains t "context deadline exceeded" = true
      · simp [cloneFailed, GoError.Error, hs, hd, handedBack]
      · simp [cloneFailed, GoError.Error, hs, hd, handedBack]
  | _ =>
    right
    refine ⟨Or.inl (by decide), ?_⟩
    simp [cloneFailed, handedBack, GoError.Error, upToDate_text_ssh, upToDate_text_deadline]

/-- The removal after a failed clone: one removal is logged, the clone log is
untouched, and the path is gone when removals cannot fail. -/
theorem os_RemoveAll_spec (env : Env) (dir : String) (w : World) :
    (os_RemoveAll env dir w).2.calls = w.calls ++ [.removeAll dir] ∧
      ((∀ wx, env.RemoveAllFailure dir wx = none) → (os_RemoveAll env dir w).2.fs.gone dir) ∧
      (env.RemoveAllFailure dir w = none →
        os_RemoveAll env dir w =
          (none, { w with fs := w.fs.removeTree dir, calls := w.calls ++ [.removeAll dir] })) := by
  unfold os_RemoveAll
  cases h : env.RemoveAllFailure dir w with
  | none => simp [gone_removeTree]
  | some ef =>
    refine ⟨rfl, fun hall => ?_, fun hx => by simp at hx⟩
    rw [hall w] at h
    simp at h

theorem cloneAttempt_spec (env : Env) (csi : CodeSourceInfo) (dir : String) (logger : Bool)
    (v : LoopVars) (opts : CloneOptions) (w : World) :
    ∃ c w1, c.deadline = minutes v.timeout ∧ c.path = dir ∧ c.opts = opts ∧
      CloneAttemptSpec env csi dir v w c w1 (cloneAttempt env csi dir logger v opts w) ∧
      c.rs = (env.PlainCloneContext (minutes v.timeout) dir opts w).1.1 ∧
      c.err = (env.PlainCloneContext (minutes v.timeout) dir opts w).1.2 := by
  unfold cloneAttempt CloneAttemptSpec
  generalize hr : env.PlainCloneContext (minutes v.timeout) dir opts w = r
  obtain ⟨⟨rs, err⟩, fs1⟩ := r
  cases err with
  | none =>
    exact ⟨⟨minutes v.timeout, dir, opts, rs, none, fs1⟩, _, rfl, rfl, rfl, ⟨by simp, by simp,
      Or.inl ⟨rfl, rfl, by simp, by simp⟩⟩, rfl, rfl⟩
  | some e =>
    simp only
    generalize hw1 : ({ w with fs := fs1, calls := w.calls ++
      [.clone ⟨minutes v.timeout, dir, opts, rs, some e, fs1⟩] } : World) = wa
    obtain ⟨hc, hst, -⟩ := os_RemoveAll_spec env dir wa
    generalize hw2 : (if (os_RemoveAll env dir wa).1.isSome = true then
      (os_RemoveAll env dir wa).2.logFailure logger "拉取代码发生错误删除代码目录失败。"
      else (os_RemoveAll env dir wa).2) = wb
    have hbc : wb.calls = w.calls ++ [.clone ⟨minutes v.timeout, dir, opts, rs, some e, fs1⟩] ++
        [.removeAll dir] := by
      rw [← hw2, ← hw1] at *
      split <;> simp [hc]
    have hbf : wb.fs = (os_RemoveAll env dir wa).2.fs := by
      rw [← hw2]; split <;> simp
    rcases cloneFailed_spec csi logger v rs e wb with ⟨h1, h2, h3⟩ | ⟨h1, w1, h3, h4, h5⟩
    · refine ⟨⟨minutes v.timeout, dir, opts, rs, some e, fs1⟩, wb, rfl, rfl, rfl, ⟨by simp [hbc],
        by simp [hbc], Or.inr ⟨e, rfl, by simp [hbc], ?_, Or.inl ⟨h1, h2, h3⟩⟩⟩, rfl, rfl⟩
      intro hall; rw [hbf]; exact hst hall
    · refine ⟨⟨minutes v.timeout, dir, opts, rs, some e, fs1⟩, w1, rfl, rfl, rfl, ⟨by simp [h5, hbc],
        by simp [h5, hbc], Or.inr ⟨e, rfl, by simp [h5, hbc], ?_, Or.inr ⟨h1, h3⟩⟩⟩, rfl, rfl⟩
      intro hall; rw [h4, hbf]; exact hst hall

theorem CloneAttemptSpec_of_same_log (env : Env) (csi : CodeSourceInfo) (dir : String)
    (v : LoopVars) (w wa : World) (c : CloneCall) (w1 : World) (s : Step)
    (h1 : cloneCalls wa.calls = cloneCalls w.calls) (h2 : pullCalls wa.calls = pullCalls w.calls)
    (h3 : removals wa.calls = removals w.calls) (h : CloneAttemptSpec env csi dir v wa c w1 s) :
    CloneAttemptSpec env csi dir v w c w1 s := by
  unfold CloneAttemptSpec at *
  rw [h1, h2, h3] at h
  exact h

theorem cloneOptions_good (csi : CodeSourceInfo) (logger : Bool) (a : Option AuthMethod) :
    let o : CloneOptions := { cloneOptions csi logger with Auth := a }
    o.URL = csi.RepositoryURL ∧ o.Depth = 1 ∧ o.SingleBranch = true ∧ o.Tags = .NoTags ∧
      o.RecurseSubmodules = NoRecurseSubmodules ∧
      o.ReferenceName = (if csi.Branch = "" then "" else "refs/heads/" ++ csi.Branch) := by
  unfold cloneOptions
  by_cases h : csi.Branch = "" <;> simp [h]

theorem cloneProxy_spec (env : Env) (csi : CodeSourceInfo) (v : LoopVars) (w : World) :
    (cloneProxy env csi v w).1.flag = v.flag ∧ (cloneProxy env csi v w).1.timeout = v.timeout ∧
      (cloneProxy env csi v w).2.calls = w.calls := by
  unfold cloneProxy
  split
  · split <;> simp
  · simp

theorem pullProxy_spec (env : Env) (csi : CodeSourceInfo) (v : LoopVars) (w : World) :
    (pullProxy env csi v w).1.flag = v.flag ∧ (pullProxy env csi v w).1.timeout = v.timeout ∧
      (pullProxy env csi v w).2.calls = w.calls ∧ (pullProxy env csi v w).2.fs = w.fs := by
  unfold pullProxy
  split <;> simp

theorem GitClonePass_spec (env : Env) (csi : CodeSourceInfo) (dir : String) (logger : Bool)
    (v : LoopVars) (w : World) :
    ClonePassSpec env csi dir v w (GitClonePass env csi dir logger v w) := by
  unfold GitClonePass ClonePassSpec
  cases hep : env.NewEndpoint csi.RepositoryURL with
  | error e => exact Or.inl ⟨e, _, rfl, by simp, by simp, by simp, by simp, Or.inl rfl⟩
  | ok ep =>
    simp only
    by_cases hssh : ep.Protocol = "ssh"
    · simp only [hssh, if_true]
      generalize hw0 : w.log logger "info" ("开始从Git源(" ++ csi.RepositoryURL ++ ")获取代码")
        "clone_code" "" = w0
      have hw0c : w0.calls = w.calls := by rw [← hw0]; simp
      have hw0f : w0.fs = w.fs := by rw [← hw0]; simp
      cases hau : env.NewPublicKeysFromFile "git"
          (GetPrivateFile env.home w0.fs v.GetPrivateFileParam) "" w0 with
      | some e => exact Or.inl ⟨e, _, rfl, by simp [hw0f], by simp [hw0c], by simp [hw0c],
          by simp [hw0c], Or.inr ⟨ep, _, _, rfl, hssh, hau⟩⟩
      | none =>
        right
        simp only
        obtain ⟨c, w1, hd, hp, ho, hspec, -, herr⟩ := cloneAttempt_spec env csi dir logger
          { v with timeout := if v.timeout < 1 then 1 else v.timeout }
          { cloneOptions csi logger with
            Auth := some (.publicKeys "git" (GetPrivateFile env.home w0.fs v.GetPrivateFileParam)
              true) }
          (w0.call (.loadKey (GetPrivateFile env.home w0.fs v.GetPrivateFileParam)))
        refine ⟨c, w1, _, ?_, ?_, ?_, CloneAttemptSpec_of_same_log _ _ _ _ _ _ _ _ _
          (by simp [hw0c]) (by simp [hw0c]) (by simp [hw0c]) hspec⟩
        · have hg := cloneOptions_good csi logger
            (some (.publicKeys "git" (GetPrivateFile env.home w0.fs v.GetPrivateFileParam) true))
          have hlink : ∃ wx, c.err = (env.PlainCloneContext c.deadline c.path c.opts wx).1.2 :=
            ⟨_, by rw [hd, hp, ho]; exact herr⟩
          simp only at hg hd
          rw [clamp_eq_max] at hd
          exact ⟨hd, hp, by rw [ho]; exact hg.1, by rw [ho]; exact hg.2.1,
            by rw [ho]; exact hg.2.2.1, by rw [ho]; exact hg.2.2.2.1,
            by rw [ho]; exact hg.2.2.2.2.1, by rw [ho]; exact hg.2.2.2.2.2, hlink⟩
        · rfl
        · exact clamp_eq_max _
    · simp only [hssh, if_false]
      right
      generalize hw0 : w.log logger "info" ("开始从Git源(" ++ csi.RepositoryURL ++ ")获取代码")
        "clone_code" "" = w0
      have hw0c : w0.calls = w.calls := by rw [← hw0]; simp
      obtain ⟨hv1, hv2, hv3⟩ := cloneProxy_spec env csi
        { v with timeout := if v.timeout < 1 then 1 else v.timeout } w0
      generalize cloneProxy env csi
        { v with timeout := if v.timeout < 1 then 1 else v.timeout } w0 = vw at hv1 hv2 hv3 ⊢
      simp only at hv1 hv2
      rw [clamp_eq_max] at hv2
      rw [hw0c] at hv3
      obtain ⟨c, w1, hd, hp, ho, hspec, -, herr⟩ := cloneAttempt_spec env csi dir logger vw.1
        { cloneOptions csi logger with Auth := basicAuthOf csi } vw.2
      refine ⟨c, w1, vw.1, ?_, hv1, hv2, CloneAttemptSpec_of_same_log _ _ _ _ _ _ _ _ _
        (by rw [hv3]) (by rw [hv3]) (by rw [hv3]) hspec⟩
      have hg := cloneOptions_good csi logger (basicAuthOf csi)
      have hlink : ∃ wx, c.err = (env.PlainCloneContext c.deadline c.path c.opts wx).1.2 :=
        ⟨_, by rw [hd, hp, ho]; exact herr⟩
      simp only at hg
      rw [hv2] at hd
      exact ⟨hd, hp, by rw [ho]; exact hg.1, by rw [ho]; exact hg.2.1,
        by rw [ho]; exact hg.2.2.1, by rw [ho]; exact hg.2.2.2.1,
        by rw [ho]; exact hg.2.2.2.2.1, by rw [ho]; exact hg.2.2.2.2.2, hlink⟩

theorem goodClone_max (env : Env) (csi : CodeSourceInfo) (dir : String) (t t1 : Int)
    (c : CloneCall) (ht : t1 = max t 1) (h : goodClone env csi dir t1 c) :
    goodClone env csi dir t c := by
  unfold goodClone at *
  have hm : max t1 1 = max t 1 := by rw [ht]; simp
  rw [hm] at h
  exact h

theorem runLoop_ret (pass : LoopVars → World → Step) (n : Nat) (v : LoopVars) (w : World)
    (r : GitResult) (w1 : World) (h : pass v w = .ret r w1) :
    runLoop pass (n + 1) v w = some (r, w1) := by
  simp [runLoop, h]

theorem runLoop_goto (pass : LoopVars → World → Step) (n : Nat) (v : LoopVars) (w : World)
    (v1 : LoopVars) (w1 : World) (h : pass v w = .goto v1 w1) :
    runLoop pass (n + 1) v w = runLoop pass n v1 w1 := by
  simp [runLoop, h]

/-- Two passes always suffice for `GitClone`, and the run has one of the shapes of
`CloneRunSpec`. -/
theorem GitClone_run (fuel : Nat) (env : Env) (csi : CodeSourceInfo) (dir : String)
    (logger : Bool) (timeout : Int) (w : World) :
    ∃ r w1 new, GitClone (fuel + 2) env csi dir logger timeout w = some (r, w1) ∧
      CloneRunSpec env csi dir timeout w r w1 new := by
  unfold GitClone CloneRunSpec
  rcases GitClonePass_spec env csi dir logger (initVars csi timeout) w with
    ⟨e, w1, hs, hfs, hc, hp, hr, hcause⟩ | ⟨c, w1, v1, hg, hfl, hto, hc, hp, hcase⟩
  · exact ⟨_, w1, [], runLoop_ret _ _ _ _ _ _ hs, by simpa using hc, hp, by simp,
      Or.inl ⟨rfl, rfl, by simp, hfs, hr, e, rfl, hcause⟩⟩
  · have hg1 : goodClone env csi dir timeout c := hg
    rcases hcase with ⟨he, hs, hfs, hr⟩ | ⟨e, he, hr, hgone, hcase⟩
    · exact ⟨_, w1, [c], runLoop_ret _ _ _ _ _ _ hs, hc, hp, by simpa using hg1,
        Or.inr (Or.inl ⟨c, rfl, he, rfl, hfs, hr⟩)⟩
    · rcases hcase with ⟨hrej, -, hs⟩ | ⟨hrej, hs⟩
      · -- second pass
        rw [runLoop_goto _ _ _ _ _ _ hs]
        generalize hv2 : ({ v1 with GetPrivateFileParam := "builder_rsa", flag := false } :
          LoopVars) = v2
        have hv2f : v2.flag = false := by rw [← hv2]
        have hv2t : v2.timeout = max timeout 1 := by rw [← hv2]; exact hto
        rcases GitClonePass_spec env csi dir logger v2 w1 with
          ⟨e2, w2, hs2, hfs2, hc2, hp2, hr2, -⟩ | ⟨c2, w2, v3, hg2, hfl2, hto2, hc2, hp2, hcase2⟩
        · refine ⟨_, w2, [c], runLoop_ret _ _ _ _ _ _ hs2, by rw [hc2, hc], by rw [hp2, hp],
            by simpa using hg1, Or.inr (Or.inr (Or.inr (Or.inl ⟨c, e, e2, rfl, he, hrej, rfl, ?_⟩)))⟩
          intro hall; rw [hfs2]; exact hgone hall
        · have hg3 : goodClone env csi dir timeout c2 :=
            goodClone_max env csi dir timeout _ c2 hv2t hg2
          have hmem : ∀ x ∈ [c, c2], goodClone env csi dir timeout x := by
            intro x hx
            simp only [List.mem_cons, List.mem_singleton, List.not_mem_nil, or_false] at hx
            rcases hx with rfl | rfl
            · exact hg1
            · exact hg3
          rcases hcase2 with ⟨he2, hs2, hfs2, hr2⟩ | ⟨e2, he2, hr2, hgone2, hcase2⟩
          · exact ⟨_, w2, [c, c2], runLoop_ret _ _ _ _ _ _ hs2, by rw [hc2, hc]; simp,
              by rw [hp2, hp], hmem,
              Or.inr (Or.inr (Or.inr (Or.inr (Or.inl ⟨c, c2, e, rfl, he, hrej, he2, rfl, hfs2⟩))))⟩
          · rcases hcase2 with ⟨-, hfl3, -⟩ | ⟨-, hs2⟩
            · rw [hfl2, hv2f] at hfl3
              exact absurd hfl3 (by simp)
            · exact ⟨_, w2, [c, c2], runLoop_ret _ _ _ _ _ _ hs2, by rw [hc2, hc]; simp,
                by rw [hp2, hp], hmem,
                Or.inr (Or.inr (Or.inr (Or.inr (Or.inr
                  ⟨c, c2, e, e2, rfl, he, hrej, he2, rfl, hgone2⟩))))⟩
      · rcases hrej with hrej | hflag
        · exact ⟨_, w1, [c], runLoop_ret _ _ _ _ _ _ hs, hc, hp, by simpa using hg1,
            Or.inr (Or.inr (Or.inl ⟨c, e, rfl, he, hrej, rfl, hgone⟩))⟩
        · rw [hfl] at hflag
          exact absurd hflag (by simp [initVars])

/-! ## `GitPull`, pass by pass -/

/-- The classification of a pull error: already-up-to-date becomes success, a
rejected SSH authentication on the first pass jumps back to `Loop`, and any other
error is returned; neither filesystem nor call log is touched. -/
theorem pullFailed_spec (csi : CodeSourceInfo) (logger : Bool) (v : LoopVars)
    (rs : Repository) (err : GoError) (w : World) :
    (err = .NoErrAlreadyUpToDate ∧
      ∃ w1, pullFailed csi logger v rs err w = .ret (some rs, none) w1 ∧
        w1.fs = w.fs ∧ w1.calls = w.calls) ∨
    (err ≠ .NoErrAlreadyUpToDate ∧ sshRejected err = true ∧ v.flag = true ∧
      pullFailed csi logger v rs err w =
        .goto { v with GetPrivateFileParam := "builder_rsa", flag := false } w) ∨
    (err ≠ .NoErrAlreadyUpToDate ∧ (sshRejected err = false ∨ v.flag = false) ∧
      ∃ w1, pullFailed csi logger v rs err w = .ret (some rs, some (handedBack csi err)) w1 ∧
        w1.fs = w.fs ∧ w1.calls = w.calls) := by
  cases err with
  | other t =>
    right
    by_cases hs : sshRejected (.other t) = true
    · by_cases hf : v.flag = true
      · left
        refine ⟨by simp, hs, hf, ?_⟩
        simp only [sshRejected, GoError.Error] at hs
        simp [pullFailed, GoError.Error, hs, hf]
      · right
        refine ⟨by simp, Or.inr (by simpa using hf), ?_⟩
        simp only [sshRejected, GoError.Error] at hs
        simp [pullFailed, GoError.Error, hs, hf, handedBack]
    · right
      refine ⟨by simp, Or.inl (by simpa using hs), ?_⟩
      simp only [sshRejected, GoError.Error] at hs
      by_cases hd : strings_Contains t "context deadline exceeded" = true
      · simp [pullFailed, GoError.Error, hs, hd, handedBack]
      · simp [pullFailed, GoError.Error, hs, hd, handedBack]
  | NoErrAlreadyUpToDate =>
    left
    refine ⟨rfl, ?_⟩
    simp [pullFailed, GoError.Error, upToDate_text_ssh, upToDate_text_deadline]
  | _ =>
    right; right
    refine ⟨by simp, Or.inl (by decide), ?_⟩
    simp [pullFailed, handedBack]

theorem PullCore_of_same (csi : CodeSourceInfo) (flag : Bool) (w wa : World) (s : Step)
    (P Q : PullCall → Prop) (G H : LoopVars → Prop)
    (h0 : wa.fs = w.fs) (h1 : pullCalls wa.calls = pullCalls w.calls)
    (h2 : cloneCalls wa.calls = cloneCalls w.calls) (h3 : removals wa.calls = removals w.calls)
    (hPQ : ∀ c, P c → Q c) (hGH : ∀ v, G v → H v) (h : PullCore csi flag wa s P G) :
    PullCore csi flag w s Q H := by
  unfold PullCore at *
  rw [h0, h1, h2, h3] at h
  rcases h with h | ⟨c, w1, hP, hp, hc, hr, hf, hcase⟩
  · exact Or.inl h
  · refine Or.inr ⟨c, w1, hPQ c hP, hp, hc, hr, hf, ?_⟩
    rcases hcase with h | ⟨e, he, hne, hcase⟩
    · exact Or.inl h
    · refine Or.inr ⟨e, he, hne, ?_⟩
      rcases hcase with ⟨a, b, v1, hs, hG⟩ | h
      · exact Or.inl ⟨a, b, v1, hs, hGH v1 hG⟩
      · exact Or.inr h

theorem pullAttempt_spec (env : Env) (csi : CodeSourceInfo) (dir : String) (logger : Bool)
    (v : LoopVars) (opts : PullOptions) (w : World) :
    PullCore csi v.flag w (pullAttempt env csi dir logger v opts w)
      (fun c => c.deadline = minutes v.timeout ∧ c.opts = opts ∧
        ∃ wx, c.err = (env.PullContext c.deadline c.repo c.opts wx).1)
      (fun v1 => v1.flag = false ∧ v1.timeout = v.timeout) := by
  unfold pullAttempt PullCore
  cases hopen : env.PlainOpen dir w with
  | error e => exact Or.inl ⟨e, _, rfl, by simp, by simp, by simp, by simp⟩
  | ok rs =>
    simp only
    cases hwt : env.Worktree rs (w.call (.plainOpen dir)) with
    | some e => exact Or.inl ⟨e, _, rfl, by simp, by simp, by simp, by simp⟩
    | none =>
      simp only
      generalize hr : env.PullContext (minutes v.timeout) rs opts (w.call (.plainOpen dir)) = r
      obtain ⟨err, fs1⟩ := r
      right
      cases err with
      | none =>
        exact ⟨⟨minutes v.timeout, rs, opts, none, fs1⟩, _, ⟨rfl, rfl, _, by rw [hr]⟩, by simp,
          by simp, by simp,
          by simp, Or.inl ⟨Or.inl rfl, rfl⟩⟩
      | some e =>
        simp only
        generalize hwa : ({ w.call (.plainOpen dir) with
          fs := fs1
          calls := (w.call (.plainOpen dir)).calls ++
            [.pull ⟨minutes v.timeout, rs, opts, some e, fs1⟩] } : World) = wa
        have hwac : wa.calls = w.calls ++ [.plainOpen dir] ++
            [.pull ⟨minutes v.timeout, rs, opts, some e, fs1⟩] := by rw [← hwa]; simp
        have hwaf : wa.fs = fs1 := by rw [← hwa]
        rcases pullFailed_spec csi logger v rs e wa with
          ⟨h1, w1, hs, hf, hc⟩ | ⟨hne, h1, h2, hs⟩ | ⟨hne, h1, w1, hs, hf, hc⟩
        · exact ⟨⟨minutes v.timeout, rs, opts, some e, fs1⟩, w1, ⟨rfl, rfl, _, by rw [hr]⟩, by simp [hc, hwac],
            by simp [hc, hwac], by simp [hc, hwac], by rw [hf, hwaf],
            Or.inl ⟨Or.inr (by rw [h1]), hs⟩⟩
        · exact ⟨⟨minutes v.timeout, rs, opts, some e, fs1⟩, wa, ⟨rfl, rfl, _, by rw [hr]⟩, by simp [hwac],
            by simp [hwac], by simp [hwac], hwaf,
            Or.inr ⟨e, rfl, hne, Or.inl ⟨h1, h2, _, hs, rfl, rfl⟩⟩⟩
        · exact ⟨⟨minutes v.timeout, rs, opts, some e, fs1⟩, w1, ⟨rfl, rfl, _, by rw [hr]⟩, by simp [hc, hwac],
            by simp [hc, hwac], by simp [hc, hwac], by rw [hf, hwaf],
            Or.inr ⟨e, rfl, hne, Or.inr ⟨h1, hs⟩⟩⟩

theorem pullOptions_good (csi : CodeSourceInfo) (logger : Bool) (a : Option AuthMethod) :
    let o : PullOptions := { pullOptions csi logger with Auth := a }
    o.Depth = 1 ∧ o.SingleBranch = true ∧
      o.ReferenceName = (if csi.Branch = "" then "" else "refs/heads/" ++ csi.Branch) := by
  unfold pullOptions
  by_cases h : csi.Branch = "" <;> simp [h]

theorem GitPullPass_spec (env : Env) (csi : CodeSourceInfo) (dir : String) (logger : Bool)
    (v : LoopVars) (w : World) :
    PullCore csi v.flag w (GitPullPass env csi dir logger v w) (goodPull env csi v.timeout)
      (fun v1 => v1.flag = false ∧ v1.timeout = max v.timeout 1) := by
  unfold GitPullPass
  generalize hw0 : w.log logger "info" ("开始从Git源(" ++ csi.RepositoryURL ++ ")更新代码")
    "clone_code" "" = w0
  have hw0c : w0.calls = w.calls := by rw [← hw0]; simp
  have hw0f : w0.fs = w.fs := by rw [← hw0]; simp
  simp only
  cases hep : env.NewEndpoint csi.RepositoryURL with
  | error e =>
    exact Or.inl ⟨e, _, rfl, by simp [hw0f], by simp [hw0c], by simp [hw0c], by simp [hw0c]⟩
  | ok ep =>
    simp only
    by_cases hssh : ep.Protocol = "ssh"
    · simp only [hssh, if_true]
      cases hau : env.NewPublicKeysFromFile "git"
          (GetPrivateFile env.home w0.fs v.GetPrivateFileParam) "" w0 with
      | some e =>
        exact Or.inl ⟨e, _, rfl, by simp [hw0f], by simp [hw0c], by simp [hw0c], by simp [hw0c]⟩
      | none =>
        simp only
        refine PullCore_of_same csi v.flag w _ _ _ _ _ _ (by simp [hw0f]) (by simp [hw0c])
          (by simp [hw0c]) (by simp [hw0c]) ?_ ?_
          (pullAttempt_spec env csi dir logger
            { v with timeout := if v.timeout < 1 then 1 else v.timeout } _ _)
        · rintro c ⟨hd, ho, hx⟩
          have hg := pullOptions_good csi logger
            (some (.publicKeys "git" (GetPrivateFile env.home w0.fs v.GetPrivateFileParam) true))
          simp only at hg hd
          rw [clamp_eq_max] at hd
          exact ⟨hd, by rw [ho]; exact hg.1, by rw [ho]; exact hg.2.1, by rw [ho]; exact hg.2.2,
            hx⟩
        · rintro v1 ⟨h1, h2⟩
          simp only at h2
          rw [clamp_eq_max] at h2
          exact ⟨h1, h2⟩
    · simp only [hssh, if_false]
      obtain ⟨hv1, hv2, hv3, hv4⟩ := pullProxy_spec env csi
        { v with timeout := if v.timeout < 1 then 1 else v.timeout } w0
      generalize pullProxy env csi
        { v with timeout := if v.timeout < 1 then 1 else v.timeout } w0 = vw at hv1 hv2 hv3 hv4 ⊢
      simp only at hv1 hv2
      rw [clamp_eq_max] at hv2
      have hspec := pullAttempt_spec env csi dir logger vw.1
        { pullOptions csi logger with Auth := basicAuthOf csi } vw.2
      rw [hv1] at hspec
      refine PullCore_of_same csi v.flag w _ _ _ _ _ _ (by rw [hv4, hw0f]) (by rw [hv3, hw0c])
        (by rw [hv3, hw0c]) (by rw [hv3, hw0c]) ?_ ?_ hspec
      · rintro c ⟨hd, ho, hx⟩
        have hg := pullOptions_good csi logger (basicAuthOf csi)
        simp only at hg
        rw [hv2] at hd
        exact ⟨hd, by rw [ho]; exact hg.1, by rw [ho]; exact hg.2.1, by rw [ho]; exact hg.2.2,
          hx⟩
      · rintro v1 ⟨h1, h2⟩
        exact ⟨h1, by rw [h2, hv2]⟩

theorem goodPull_max (env : Env) (csi : CodeSourceInfo) (t t1 : Int) (c : PullCall)
    (ht : t1 = max t 1) (h : goodPull env csi t1 c) : goodPull env csi t c := by
  unfold goodPull at *
  have hm : max t1 1 = max t 1 := by rw [ht]; simp
  rw [hm] at h
  exact h

/-- Two passes always suffice for `GitPull`, and the run has one of the shapes of
`PullRunSpec`. -/
theorem GitPull_run (fuel : Nat) (env : Env) (csi : CodeSourceInfo) (dir : String)
    (logger : Bool) (timeout : Int) (w : World) :
    ∃ r w1 new, GitPull (fuel + 2) env csi dir logger timeout w = some (r, w1) ∧
      PullRunSpec env csi timeout w r w1 new := by
  unfold GitPull PullRunSpec
  rcases GitPullPass_spec env csi dir logger (initVars csi timeout) w with
    ⟨e, w1, hs, hfs, hp, hc, hr⟩ | ⟨c, w1, hg, hp, hc, hr, hfs, hcase⟩
  · exact ⟨_, w1, [], runLoop_ret _ _ _ _ _ _ hs, by simpa using hp, hc, hr, by simp,
      Or.inl ⟨rfl, rfl, by simp, hfs⟩⟩
  · have hg1 : goodPull env csi timeout c := hg
    rcases hcase with ⟨he, hs⟩ | ⟨e, he, hne, hcase⟩
    · exact ⟨_, w1, [c], runLoop_ret _ _ _ _ _ _ hs, hp, hc, hr, by simpa using hg1,
        Or.inr (Or.inl ⟨c, rfl, he, rfl, hfs⟩)⟩
    · rcases hcase with ⟨hrej, -, v2, hs, hv2f, hv2t⟩ | ⟨hrej, hs⟩
      · rw [runLoop_goto _ _ _ _ _ _ hs]
        have hv2t1 : v2.timeout = max timeout 1 := hv2t
        rcases GitPullPass_spec env csi dir logger v2 w1 with
          ⟨e2, w2, hs2, hfs2, hp2, hc2, hr2⟩ | ⟨c2, w2, hg2, hp2, hc2, hr2, hfs2, hcase2⟩
        · exact ⟨_, w2, [c], runLoop_ret _ _ _ _ _ _ hs2, by rw [hp2, hp], by rw [hc2, hc],
            by rw [hr2, hr], by simpa using hg1,
            Or.inr (Or.inr (Or.inr (Or.inl ⟨c, e, e2, rfl, he, hrej, rfl, by rw [hfs2, hfs]⟩)))⟩
        · have hg3 : goodPull env csi timeout c2 := goodPull_max env csi timeout _ c2 hv2t1 hg2
          have hmem : ∀ x ∈ [c, c2], goodPull env csi timeout x := by
            intro x hx
            simp only [List.mem_cons, List.mem_singleton, List.not_mem_nil, or_false] at hx
            rcases hx with rfl | rfl
            · exact hg1
            · exact hg3
          rcases hcase2 with ⟨he2, hs2⟩ | ⟨e2, he2, hne2, hcase2⟩
          · exact ⟨_, w2, [c, c2], runLoop_ret _ _ _ _ _ _ hs2, by rw [hp2, hp]; simp,
              by rw [hc2, hc], by rw [hr2, hr], hmem,
              Or.inr (Or.inr (Or.inr (Or.inr (Or.inl ⟨c, c2, e, rfl, he, hrej, he2, rfl, hfs2⟩))))⟩
          · rcases hcase2 with ⟨-, hfl3, -⟩ | ⟨-, hs2⟩
            · rw [hv2f] at hfl3
              exact absurd hfl3 (by simp)
            · exact ⟨_, w2, [c, c2], runLoop_ret _ _ _ _ _ _ hs2, by rw [hp2, hp]; simp,
                by rw [hc2, hc], by rw [hr2, hr], hmem,
                Or.inr (Or.inr (Or.inr (Or.inr (Or.inr
                  ⟨c, c2, e, e2, rfl, he, hrej, he2, hne2, rfl, hfs2⟩))))⟩
      · rcases hrej with hrej | hflag
        · exact ⟨_, w1, [c], runLoop_ret _ _ _ _ _ _ hs, hp, hc, hr, by simpa using hg1,
            Or.inr (Or.inr (Or.inl ⟨c, e, rfl, he, hne, hrej, rfl, hfs⟩))⟩
        · exact absurd hflag (by simp [initVars])

theorem splitSlash_ne_nil (a : List Char) : splitSlash a ≠ [] := by
  cases a with
  | nil => simp [splitSlash]
  | cons c cs =>
    unfold splitSlash
    split
    · simp
    · split <;> simp

theorem splitSlash_append (a b : List Char) :
    splitSlash (a ++ '/' :: b) = splitSlash a ++ splitSlash b := by
  induction a with
  | nil => simp [splitSlash]
  | cons c cs ih =>
    by_cases hc : c = '/'
    · simp [splitSlash, hc, ih]
    · have hne := splitSlash_ne_nil cs
      cases hsp : splitSlash cs with
      | nil => exact absurd hsp hne
      | cons h t =>
        simp [splitSlash, hc, ih, hsp]

theorem splitSlash_noSlash (a : List Char) (h : '/' ∉ a) : splitSlash a = [a] := by
  induction a with
  | nil => rfl
  | cons c cs ih =>
    have hc : c ≠ '/' := fun hc => h (by simp [hc])
    have hcs : '/' ∉ cs := fun hcs => h (by simp [hcs])
    simp [splitSlash, hc, ih hcs]

theorem joinSlash_snoc (l : List (List Char)) (x : List Char) (hl : l ≠ []) :
    joinSlash (l ++ [x]) = joinSlash l ++ '/' :: x := by
  induction l with
  | nil => exact absurd rfl hl
  | cons a t ih =>
    cases t with
    | nil => simp [joinSlash]
    | cons b r =>
      have := ih (by simp)
      simp only [List.cons_append, joinSlash, List.append_eq] at this ⊢
      rw [this]
      simp

theorem cleanStep_valid (rooted : Bool) (out : List (List Char)) (c : List Char)
    (h1 : c ≠ []) (h2 : c ≠ ['.']) (h3 : c ≠ ['.', '.']) : cleanStep rooted out c = c :: out := by
  simp [cleanStep, h1, h2, h3]

theorem append_slash_inj (t t1 s s1 : List Char) (ht : '/' ∉ t) (ht1 : '/' ∉ t1)
    (h : t ++ '/' :: s = t1 ++ '/' :: s1) : t = t1 ∧ s = s1 := by
  induction t generalizing t1 with
  | nil =>
    cases t1 with
    | nil => simpa using h
    | cons d ds =>
      simp only [List.nil_append, List.cons_append, List.cons.injEq] at h
      exact absurd (by simp [← h.1]) ht1
  | cons c cs ih =>
    cases t1 with
    | nil =>
      simp only [List.nil_append, List.cons_append, List.cons.injEq] at h
      exact absurd (by simp [h.1]) ht
    | cons d ds =>
      simp only [List.cons_append, List.cons.injEq] at h
      have hcs : '/' ∉ cs := fun hcs => ht (by simp [hcs])
      have hds : '/' ∉ ds := fun hds => ht1 (by simp [hds])
      obtain ⟨h1, h2⟩ := ih ds hcs hds h.2
      exact ⟨by rw [h.1, h1], h2⟩

/-- The directory `path.Join(root, "build", t, s)` for a non-empty root and
identifiers that are single path elements. -/
theorem path_Join_build (root t s : String) (hr : root.data ≠ []) (ht : validID t)
    (hs : validID s) :
    (path_Join [root, "build", t, s]).data = buildBase root.data ++ '/' :: t.data ++ '/' :: s.data := by
  obtain ⟨t1, t2, t3, t4⟩ := ht
  obtain ⟨s1, s2, s3, s4⟩ := hs
  have hb : '/' ∉ ("build" : String).data := by decide
  have hdrop : List.dropWhile (fun e : List Char => e.isEmpty)
      (List.map String.data [root, "build", t, s]) = [root.data, "build".data, t.data, s.data] := by
    cases hrd : root.data with
    | nil => exact absurd hrd hr
    | cons c cs => simp [List.dropWhile, hrd]
  unfold path_Join
  rw [hdrop]
  simp only [joinSlash]
  unfold cleanChars
  have hhead : (root.data ++ '/' :: ("build".data ++ '/' :: (t.data ++ '/' :: s.data))).head? =
      root.data.head? := by
    cases hrd : root.data with
    | nil => exact absurd hrd hr
    | cons c cs => rfl
  simp only [hhead]
  rw [splitSlash_append, splitSlash_append, splitSlash_append, splitSlash_noSlash _ hb,
    splitSlash_noSlash _ t2, splitSlash_noSlash _ s2]
  simp only [List.foldl_append, List.foldl_cons, List.foldl_nil]
  rw [cleanStep_valid _ _ "build".data (by decide) (by decide) (by decide),
    cleanStep_valid _ _ t.data t1 t3 t4, cleanStep_valid _ _ s.data s1 s3 s4]
  unfold buildBase
  generalize List.foldl (cleanStep (decide (root.data.head? = some '/'))) []
    (splitSlash root.data) = st0
  have hrev : (s.data :: t.data :: "build".data :: st0).reverse =
      ((st0.reverse ++ ["build".data]) ++ [t.data]) ++ [s.data] := by simp
  rw [hrev, joinSlash_snoc _ _ (by simp), joinSlash_snoc _ _ (by simp)]
  have hbd : ("build" : String).data = ['b', 'u', 'i', 'l', 'd'] := by decide
  rw [hbd]
  simp only [decide_eq_true_eq, List.append_assoc]
  rw [if_neg]
  simp

/-! ## Claims -/

theorem path_Join_build_inj (root t s t1 s1 : String) (hr : root.data ≠ []) (ht : validID t)
    (hs : validID s) (ht1 : validID t1) (hs1 : validID s1)
    (h : path_Join [root, "build", t, s] = path_Join [root, "build", t1, s1]) :
    t = t1 ∧ s = s1 := by
  have h1 := path_Join_build root t s hr ht hs
  have h2 := path_Join_build root t1 s1 hr ht1 hs1
  rw [h, h2] at h1
  have h3 : t1.data ++ '/' :: s1.data = t.data ++ '/' :: s.data := by
    simpa [List.append_assoc] using h1
  obtain ⟨h4, h5⟩ := append_slash_inj _ _ _ _ ht1.2.1 ht.2.1 h3
  exact ⟨String.ext h4.symm, String.ext h5.symm⟩

theorem defaulted_ne_empty (x d : String) (hd : d.data ≠ []) :
    (if x = "" then d else x).data ≠ [] := by
  split
  · exact hd
  · rename_i hx
    intro h
    exact hx (String.ext h)

/-- C10, as stated, fails: two descriptors with different (TenantID, ServiceID)
pairs, `("a/b", "c")` and `("a", "b/c")`, share their cache directory and their
source directory, because `path.Join` only concatenates and cleans. -/
theorem C10_counterexample :
    ({ csiHttps with TenantID := "a/b", ServiceID := "c" } : CodeSourceInfo).GetCodeCacheDir
        (fun _ => "") =
      ({ csiHttps with TenantID := "a", ServiceID := "b/c" } : CodeSourceInfo).GetCodeCacheDir
        (fun _ => "") ∧
    ({ csiHttps with TenantID := "a/b", ServiceID := "c" } : CodeSourceInfo).GetCodeSourceDir
        (fun _ => "") =
      ({ csiHttps with TenantID := "a", ServiceID := "b/c" } : CodeSourceInfo).GetCodeSourceDir
        (fun _ => "") ∧
    (("a/b" : String), ("c" : String)) ≠ ("a", "b/c") := by
  decide

/-- C10, amended: for a fixed environment, two descriptors whose TenantID and
ServiceID are each a single ordinary path element (non-empty, without a slash,
neither `.` nor `..`) and whose (TenantID, ServiceID) pairs differ get different
cache directories and different source directories. -/
theorem C10_distinct_directories (getenv : String → String) (c1 c2 : CodeSourceInfo)
    (h1 : validID c1.TenantID) (h2 : validID c1.ServiceID) (h3 : validID c2.TenantID)
    (h4 : validID c2.ServiceID)
    (hne : (c1.TenantID, c1.ServiceID) ≠ (c2.TenantID, c2.ServiceID)) :
    c1.GetCodeCacheDir getenv ≠ c2.GetCodeCacheDir getenv ∧
      c1.GetCodeSourceDir getenv ≠ c2.GetCodeSourceDir getenv := by
  constructor
  · intro h
    unfold CodeSourceInfo.GetCodeCacheDir at h
    obtain ⟨a, b⟩ := path_Join_build_inj _ _ _ _ _
      (defaulted_ne_empty (getenv "CACHE_DIR") "/cache" (by decide)) h1 h2 h3 h4 h
    exact hne (by rw [a, b])
  · intro h
    unfold CodeSourceInfo.GetCodeSourceDir GetCodeSourceDir at h
    obtain ⟨a, b⟩ := path_Join_build_inj _ _ _ _ _
      (defaulted_ne_empty (getenv "SOURCE_DIR") "/grdata/source" (by decide)) h1 h2 h3 h4 h
    exact hne (by rw [a, b])

/-- A concrete instance: two services of one tenant. -/
theorem C10_distinct_directories_witness :
    csiHttps.GetCodeCacheDir (fun _ => "") ≠
        ({ csiHttps with ServiceID := "service2" } : CodeSourceInfo).GetCodeCacheDir (fun _ => "") ∧
      csiHttps.GetCodeSourceDir (fun _ => "") ≠
        ({ csiHttps with ServiceID := "service2" } : CodeSourceInfo).GetCodeSourceDir
          (fun _ => "") :=
  C10_distinct_directories (fun _ => "") csiHttps { csiHttps with ServiceID := "service2" }
    (by decide) (by decide) (by decide) (by decide) (by decide)

theorem minutes_of_le (t : Int) (h : t ≤ 153722867) :
    minutes (max t 1) = max t 1 * time_Minute ∧ time_Minute ≤ minutes (max t 1) := by
  have h1 : 1 ≤ max t 1 := le_max_right _ _
  have h2 : max t 1 ≤ 153722867 := max_le h (by norm_num)
  generalize max t 1 = m at h1 h2
  have hw : wrapInt64 m = m := by
    unfold wrapInt64
    omega
  have hm : minutes m = m * time_Minute := by
    unfold minutes
    rw [hw]
    unfold wrapInt64 time_Minute
    norm_num
    omega
  rw [hm]
  unfold time_Minute
  constructor
  · rfl
  · omega

/-- C9 at the failing input: for the timeout 153722868 the 64-bit product
`time.Minute * time.Duration(timeout)` wraps around, and the clone attempt runs
under a negative deadline, less than the one minute the clamp is there to
guarantee. -/
theorem C9_deadline_overflow :
    (GitClone 2 (sampleEnv (fun _ => none) (fun _ => none) false (fun _ => false)) csiHttps "/src"
        false 153722868 World.blank).map (fun r => (cloneCalls r.2.calls).map (fun c => c.deadline)) =
      some [-9223371993709551616] ∧
    (-9223371993709551616 : Int) < time_Minute := by
  decide

/-- Below the overflow bound the deadline is right: for every timeout up to
153722867 minutes, every clone attempt of `GitClone` and every pull attempt of
`GitPull` runs under a deadline of `max(timeout, 1)` minutes, which is at least
one minute and exactly one minute for a timeout below 1. -/
theorem C9_deadline (fuel : Nat) (env : Env) (csi : CodeSourceInfo) (dir : String)
    (logger : Bool) (timeout : Int) (w : World) (h : timeout ≤ 153722867) :
    (∃ r w1 new, GitClone (fuel + 2) env csi dir logger timeout w = some (r, w1) ∧
      cloneCalls w1.calls = cloneCalls w.calls ++ new ∧
      ∀ c ∈ new, c.deadline = max timeout 1 * time_Minute ∧ time_Minute ≤ c.deadline ∧
        (timeout < 1 → c.deadline = time_Minute)) ∧
    (∃ r w1 new, GitPull (fuel + 2) env csi dir logger timeout w = some (r, w1) ∧
      pullCalls w1.calls = pullCalls w.calls ++ new ∧
      ∀ c ∈ new, c.deadline = max timeout 1 * time_Minute ∧ time_Minute ≤ c.deadline ∧
        (timeout < 1 → c.deadline = time_Minute)) := by
  obtain ⟨hm1, hm2⟩ := minutes_of_le timeout h
  have hlow : timeout < 1 → max timeout 1 * time_Minute = time_Minute := by
    intro hlt
    rw [max_eq_right (by omega)]
    simp
  constructor
  · obtain ⟨r, w1, new, hrun, hc, -, hgood, -⟩ := GitClone_run fuel env csi dir logger timeout w
    refine ⟨r, w1, new, hrun, hc, fun c hcm => ?_⟩
    have hd : c.deadline = minutes (max timeout 1) := (hgood c hcm).1
    rw [hd, hm1]
    exact ⟨rfl, by rw [← hm1]; exact hm2, hlow⟩
  · obtain ⟨r, w1, new, hrun, hc, -, -, hgood, -⟩ := GitPull_run fuel env csi dir logger timeout w
    refine ⟨r, w1, new, hrun, hc, fun c hcm => ?_⟩
    have hd : c.deadline = minutes (max timeout 1) := (hgood c hcm).1
    rw [hd, hm1]
    exact ⟨rfl, by rw [← hm1]; exact hm2, hlow⟩

/-- A concrete instance: a clone with timeout 0. -/
theorem C9_deadline_witness :
    ∃ r w1 new,
      GitClone 2 (sampleEnv (fun _ => none) (fun _ => none) false (fun _ => false)) csiHttps "/src"
        false 0 World.blank = some (r, w1) ∧
      cloneCalls w1.calls = cloneCalls World.blank.calls ++ new ∧
      ∀ c ∈ new, c.deadline = max 0 1 * time_Minute ∧ time_Minute ≤ c.deadline ∧
        ((0 : Int) < 1 → c.deadline = time_Minute) :=
  (C9_deadline 0 (sampleEnv (fun _ => none) (fun _ => none) false (fun _ => false)) csiHttps "/src"
    false 0 World.blank (by decide)).1

/-- C8, as stated, fails: with neither the tenant key file nor the shared key file
present, `GetPrivateFile("tenant1")` returns the tenant path, not the default
identity path; and with only the shared key file present it still returns the
tenant path, not the shared one. -/
theorem C8_counterexample :
    GetPrivateFile "" [] "tenant1" = "/root/.ssh/tenant1" ∧
      FS.stat [] "/root/.ssh/tenant1" = false ∧ FS.stat [] "/root/.ssh/builder_rsa" = false ∧
      GetPrivateFile "" [] "tenant1" ≠ "/root/.ssh/id_rsa" ∧
      GetPrivateFile "" [("/root/.ssh/builder_rsa", some "key")] "tenant1" = "/root/.ssh/tenant1" ∧
      FS.stat [("/root/.ssh/builder_rsa", some "key")] "/root/.ssh/builder_rsa" = true := by
  decide

/-- C8, amended: for a tenant ID other than `builder_rsa`, `GetPrivateFile` returns
the tenant path `<home>/.ssh/<tenantId>` whatever the filesystem holds; for
`builder_rsa` it returns `<home>/.ssh/builder_rsa` if that file exists and
`<home>/.ssh/id_rsa` otherwise; `<home>` is `/root` when the home directory is
empty. -/
theorem C8_private_file (home : String) (fs : FS) (tenantId : String)
    (h : tenantId ≠ "builder_rsa") :
    GetPrivateFile home fs tenantId =
        path_Join [if home = "" then "/root" else home, "/.ssh/" ++ tenantId] ∧
      (fs.stat (path_Join [if home = "" then "/root" else home, "/.ssh/builder_rsa"]) = true →
        GetPrivateFile home fs "builder_rsa" =
          path_Join [if home = "" then "/root" else home, "/.ssh/builder_rsa"]) ∧
      (fs.stat (path_Join [if home = "" then "/root" else home, "/.ssh/builder_rsa"]) = false →
        GetPrivateFile home fs "builder_rsa" =
          path_Join [if home = "" then "/root" else home, "/.ssh/id_rsa"]) := by
  refine ⟨?_, ?_, ?_⟩
  · simp [GetPrivateFile, h]
  · intro hs
    simp [GetPrivateFile, FileExists, hs]
  · intro hs
    simp [GetPrivateFile, FileExists, hs]

/-- A concrete instance: the tenant `tenant1` with an empty home
directory and an empty filesystem. -/
theorem C8_private_file_witness :
    GetPrivateFile "" [] "tenant1" =
        path_Join [if ("" : String) = "" then "/root" else "", "/.ssh/" ++ "tenant1"] ∧
      path_Join [if ("" : String) = "" then "/root" else "", "/.ssh/" ++ "tenant1"] =
        "/root/.ssh/tenant1" ∧
      GetPrivateFile "" [] "builder_rsa" = "/root/.ssh/id_rsa" :=
  ⟨(C8_private_file "" [] "tenant1" (by decide)).1, by decide, by decide⟩

/-- C6: every clone attempt of a call of `GitClone`, the retry with the fallback
key included, asks for depth 1, a single branch, no tags and no submodule
recursion; the reference is `refs/heads/<Branch>` for a non-empty branch and is
left unset for an empty one. -/
theorem C6_clone_options (fuel : Nat) (env : Env) (csi : CodeSourceInfo) (dir : String)
    (logger : Bool) (timeout : Int) (w : World) :
    ∃ r w1 new, GitClone (fuel + 2) env csi dir logger timeout w = some (r, w1) ∧
      cloneCalls w1.calls = cloneCalls w.calls ++ new ∧
      ∀ c ∈ new, c.opts.Depth = 1 ∧ c.opts.SingleBranch = true ∧ c.opts.Tags = .NoTags ∧
        c.opts.RecurseSubmodules = NoRecurseSubmodules ∧
        c.opts.ReferenceName = (if csi.Branch = "" then "" else "refs/heads/" ++ csi.Branch) := by
  obtain ⟨r, w1, new, hrun, hc, -, hgood, -⟩ := GitClone_run fuel env csi dir logger timeout w
  refine ⟨r, w1, new, hrun, hc, fun c hcm => ?_⟩
  obtain ⟨-, -, -, h1, h2, h3, h4, h5, -⟩ := hgood c hcm
  exact ⟨h1, h2, h3, h4, h5⟩

/-- C4, as stated, fails: `GitClone` returns an error and the destination directory
is still there, with removal never failing, both when the repository URL does not
parse and when the tenant key of an SSH repository does not load; in either case
the function returns before any clone attempt and removes nothing. -/
theorem C4_counterexample :
    (GitClone 2 (sampleEnv (fun _ => none) (fun _ => none) false (fun _ => false))
        { csiHttps with RepositoryURL := "https://exa mple.com/acme/app.git" } "/src" false 5
        World.cloned).map (fun r => (r.1.2.isSome, r.2.fs.stat "/src")) = some (true, true) ∧
    (GitClone 2 (sampleEnv (fun _ => none) (fun _ => none) false (fun _ => false)) csiSsh "/src"
        false 5 { World.blank with fs := [("/src", none)] }).map
      (fun r => (r.1.2.isSome, r.2.fs.stat "/src")) = some (true, true) ∧
    ∀ wx, (sampleEnv (fun _ => none) (fun _ => none) false (fun _ => false)).RemoveAllFailure
      "/src" wx = none :=
  ⟨by decide, by decide, fun _ => rfl⟩

/-- C4, amended: when removal does not fail and `GitClone` returns an error, either
no clone attempt was made and the filesystem is as it was on entry, or a clone
attempt was made and the destination directory does not exist on return (the
state holds nothing at or below the directory the path names, however the path
is spelled); an attempt that fails with `RepositoryNotFound` ends the call with
that error and the directory gone; and when the URL parses, the key of an SSH
endpoint loads and the transport fails every clone, the call does make an attempt
and returns an error with the directory gone. -/
theorem C4_clone_failure_cleanup (fuel : Nat) (env : Env) (csi : CodeSourceInfo) (dir : String)
    (logger : Bool) (timeout : Int) (w : World)
    (hrm : ∀ wx, env.RemoveAllFailure dir wx = none) :
    ∃ r w1 new, GitClone (fuel + 2) env csi dir logger timeout w = some (r, w1) ∧
      cloneCalls w1.calls = cloneCalls w.calls ++ new ∧
      (r.2 ≠ none → (new = [] ∧ w1.fs = w.fs) ∨ (new ≠ [] ∧ w1.fs.gone dir)) ∧
      (∀ c ∈ new, c.err = some .ErrRepositoryNotFound →
        r.2 = some .ErrRepositoryNotFound ∧ w1.fs.gone dir) ∧
      (∀ ep, env.NewEndpoint csi.RepositoryURL = .ok ep →
        (ep.Protocol = "ssh" → ∀ f wx, env.NewPublicKeysFromFile "git" f "" wx = none) →
        (∀ d p o wx, (env.PlainCloneContext d p o wx).1.2 ≠ none) →
        r.2 ≠ none ∧ new ≠ [] ∧ w1.fs.gone dir) := by
  obtain ⟨r, w1, new, hrun, hc, -, hgood, hshape⟩ := GitClone_run fuel env csi dir logger timeout w
  refine ⟨r, w1, new, hrun, hc, ?_, ?_, ?_⟩
  · intro hr
    rcases hshape with ⟨hn, -, -, hfs, -⟩ | ⟨c, hn, -, hres, -⟩ | ⟨c, e, hn, -, -, -, hg⟩ |
      ⟨c, e, e2, hn, -, -, -, hg⟩ | ⟨c1, c2, e1, hn, -, -, -, hres, -⟩ |
      ⟨c1, c2, e1, e2, hn, -, -, -, -, hg⟩
    · exact Or.inl ⟨hn, hfs⟩
    · rw [hres] at hr; exact absurd rfl hr
    · exact Or.inr ⟨by rw [hn]; simp, hg hrm⟩
    · exact Or.inr ⟨by rw [hn]; simp, hg hrm⟩
    · rw [hres] at hr; exact absurd rfl hr
    · exact Or.inr ⟨by rw [hn]; simp, hg hrm⟩
  · intro c hcm hce
    rcases hshape with ⟨hn, -⟩ | ⟨c0, hn, he, -⟩ | ⟨c0, e, hn, he, -, hres, hg⟩ |
      ⟨c0, e, e2, hn, he, hrej, -⟩ | ⟨c1, c2, e1, hn, he1, hrej, he2, -⟩ |
      ⟨c1, c2, e1, e2, hn, he1, hrej, he2, hres, hg⟩
    · rw [hn] at hcm; simp at hcm
    · rw [hn] at hcm; simp only [List.mem_singleton] at hcm
      rw [hcm, he] at hce; simp at hce
    · rw [hn] at hcm; simp only [List.mem_singleton] at hcm
      rw [hcm, he] at hce
      simp only [Option.some.injEq] at hce
      rw [hres, hce]
      exact ⟨by simp [handedBack], hg hrm⟩
    · rw [hn] at hcm; simp only [List.mem_singleton] at hcm
      rw [hcm, he] at hce
      simp only [Option.some.injEq] at hce
      rw [hce] at hrej
      exact absurd hrej (by decide)
    · rw [hn] at hcm
      simp only [List.mem_cons, List.mem_singleton, List.not_mem_nil, or_false] at hcm
      rcases hcm with rfl | rfl
      · rw [he1] at hce
        simp only [Option.some.injEq] at hce
        rw [hce] at hrej
        exact absurd hrej (by decide)
      · rw [he2] at hce; simp at hce
    · rw [hn] at hcm
      simp only [List.mem_cons, List.mem_singleton, List.not_mem_nil, or_false] at hcm
      rcases hcm with rfl | rfl
      · rw [he1] at hce
        simp only [Option.some.injEq] at hce
        rw [hce] at hrej
        exact absurd hrej (by decide)
      · rw [he2] at hce
        simp only [Option.some.injEq] at hce
        rw [hres, hce]
        exact ⟨by simp [handedBack], hg hrm⟩
  · intro ep hep hkey hfail
    have hbad : ∀ c ∈ new, c.err ≠ none := by
      intro c hcm
      obtain ⟨-, -, -, -, -, -, -, -, wx, hx⟩ := hgood c hcm
      rw [hx]
      exact hfail _ _ _ _
    rcases hshape with ⟨-, -, -, -, -, e, -, hcause⟩ | ⟨c, hn, he, -⟩ | ⟨c, e, hn, -, -, hres, hg⟩ |
      ⟨c, e, e2, hn, -, -, hres, hg⟩ | ⟨c1, c2, e1, hn, -, -, he2, -⟩ |
      ⟨c1, c2, e1, e2, hn, -, -, -, hres, hg⟩
    · rcases hcause with hne | ⟨ep2, f, wx, hep2, hssh, hk⟩
      · rw [hep] at hne; simp at hne
      · rw [hep] at hep2
        simp only [Except.ok.injEq] at hep2
        rw [← hep2] at hssh
        rw [hkey hssh f wx] at hk
        simp at hk
    · exact absurd he (hbad c (by rw [hn]; simp))
    · exact ⟨by rw [hres]; simp, by rw [hn]; simp, hg hrm⟩
    · exact ⟨by rw [hres]; simp, by rw [hn]; simp, hg hrm⟩
    · exact absurd he2 (hbad c2 (by rw [hn]; simp))
    · exact ⟨by rw [hres]; simp, by rw [hn]; simp, hg hrm⟩

/-- A concrete instance: a clone into the existing directory `/src`, named as
`/src/`, that fails with `RepositoryNotFound`; afterwards the filesystem holds
nothing. -/
theorem C4_clone_failure_cleanup_witness :
    (∀ wx, (sampleEnv (fun _ => some .ErrRepositoryNotFound) (fun _ => none) false
        (fun _ => false)).RemoveAllFailure "/src/" wx = none) ∧
    (∃ r w1 new,
      GitClone 2 (sampleEnv (fun _ => some .ErrRepositoryNotFound) (fun _ => none) false
        (fun _ => false)) csiHttps "/src/" false 5
        { World.blank with fs := [("/src", none), ("/src/old.txt", some "text")] } =
        some (r, w1) ∧
      cloneCalls w1.calls =
        cloneCalls ({ World.blank with
          fs := [("/src", none), ("/src/old.txt", some "text")] } : World).calls ++ new ∧
      (r.2 ≠ none →
        (new = [] ∧ w1.fs = ({ World.blank with
          fs := [("/src", none), ("/src/old.txt", some "text")] } : World).fs) ∨
        (new ≠ [] ∧ w1.fs.gone "/src/")) ∧
      (∀ c ∈ new, c.err = some .ErrRepositoryNotFound →
        r.2 = some .ErrRepositoryNotFound ∧ w1.fs.gone "/src/") ∧
      (∀ ep, (sampleEnv (fun _ => some .ErrRepositoryNotFound) (fun _ => none) false
          (fun _ => false)).NewEndpoint csiHttps.RepositoryURL = .ok ep →
        (ep.Protocol = "ssh" → ∀ f wx,
          (sampleEnv (fun _ => some .ErrRepositoryNotFound) (fun _ => none) false
            (fun _ => false)).NewPublicKeysFromFile "git" f "" wx = none) →
        (∀ d p o wx, ((sampleEnv (fun _ => some .ErrRepositoryNotFound) (fun _ => none) false
          (fun _ => false)).PlainCloneContext d p o wx).1.2 ≠ none) →
        r.2 ≠ none ∧ new ≠ [] ∧ w1.fs.gone "/src/")) ∧
    (GitClone 2 (sampleEnv (fun _ => some .ErrRepositoryNotFound) (fun _ => none) false
        (fun _ => false)) csiHttps "/src/" false 5
        { World.blank with fs := [("/src", none), ("/src/old.txt", some "text")] }).map
      (fun r => (r.1.2, (cloneCalls r.2.calls).length, r.2.fs)) =
      some (some .ErrRepositoryNotFound, 1, []) :=
  ⟨fun _ => rfl,
    C4_clone_failure_cleanup 0 (sampleEnv (fun _ => some .ErrRepositoryNotFound) (fun _ => none)
      false (fun _ => false)) csiHttps "/src/" false 5
      { World.blank with fs := [("/src", none), ("/src/old.txt", some "text")] } (fun _ => rfl),
    by decide⟩

/-- C2, as stated, fails in the part "returns that attempt's failure": a pull whose
only attempt ends with the already-up-to-date error, which does not carry the
rejection text, makes `GitPull` return no error at all; and a clone whose only
attempt ends with `ErrReferenceNotFound` makes `GitClone` return a different
error, naming the branch. -/
theorem C2_counterexample :
    (GitPull 2 (sampleEnv (fun _ => none) (fun _ => some .NoErrAlreadyUpToDate) false
        (fun _ => false)) csiHttps "/src" false 5 World.cloned).map
      (fun r => ((pullCalls r.2.calls).map (fun c => c.err), r.1.2)) =
      some ([some .NoErrAlreadyUpToDate], none) ∧
    sshRejected .NoErrAlreadyUpToDate = false ∧
    (GitClone 2 (sampleEnv (fun _ => some .ErrReferenceNotFound) (fun _ => none) false
        (fun _ => false)) csiHttps "/src" false 5 World.blank).map
      (fun r => ((cloneCalls r.2.calls).map (fun c => c.err), r.1.2)) =
      some ([some .ErrReferenceNotFound], some (.other "branch master is not exist")) ∧
    sshRejected .ErrReferenceNotFound = false := by
  decide

/-- C2, amended: a call of `GitClone`, and likewise of `GitPull`, returns with two
passes of fuel and makes at most two transport attempts.  When the first attempt
ends with an error without the rejection text, it is the only attempt, and the
call hands back that error, except that `ErrReferenceNotFound` is handed back as
the error naming the branch and that `GitPull` hands back no error for
already-up-to-date.  When two attempts both end with an error carrying the
rejection text, the call returns the second error. -/
theorem C2_at_most_one_retry (fuel : Nat) (env : Env) (csi : CodeSourceInfo) (dir : String)
    (logger : Bool) (timeout : Int) (w : World) :
    (∃ r w1 new, GitClone (fuel + 2) env csi dir logger timeout w = some (r, w1) ∧
      cloneCalls w1.calls = cloneCalls w.calls ++ new ∧ pullCalls w1.calls = pullCalls w.calls ∧
      new.length ≤ 2 ∧
      (∀ c e rest, new = c :: rest → c.err = some e → sshRejected e = false →
        rest = [] ∧ r.2 = some (handedBack csi e)) ∧
      (∀ c1 c2 e1 e2, new = [c1, c2] → c1.err = some e1 → c2.err = some e2 →
        sshRejected e1 = true → sshRejected e2 = true → r.2 = some e2)) ∧
    (∃ r w1 new, GitPull (fuel + 2) env csi dir logger timeout w = some (r, w1) ∧
      pullCalls w1.calls = pullCalls w.calls ++ new ∧ cloneCalls w1.calls = cloneCalls w.calls ∧
      new.length ≤ 2 ∧
      (∀ c e rest, new = c :: rest → c.err = some e → sshRejected e = false →
        rest = [] ∧
          r.2 = (if e = .NoErrAlreadyUpToDate then none else some (handedBack csi e))) ∧
      (∀ c1 c2 e1 e2, new = [c1, c2] → c1.err = some e1 → c2.err = some e2 →
        sshRejected e1 = true → sshRejected e2 = true → r.2 = some e2)) := by
  constructor
  · obtain ⟨r, w1, new, hrun, hc, hp, -, hshape⟩ := GitClone_run fuel env csi dir logger timeout w
    refine ⟨r, w1, new, hrun, hc, hp, ?_, ?_, ?_⟩
    · rcases hshape with ⟨hn, -⟩ | ⟨c, hn, -⟩ | ⟨c, e, hn, -⟩ | ⟨c, e, e2, hn, -⟩ |
        ⟨c1, c2, e1, hn, -⟩ | ⟨c1, c2, e1, e2, hn, -⟩ <;> rw [hn] <;> simp
    · intro c e rest hnew hce hrej
      rcases hshape with ⟨hn, -⟩ | ⟨c0, hn, he, -⟩ | ⟨c0, e0, hn, he, -, hres, -⟩ |
        ⟨c0, e0, e2, hn, he, hrej0, -⟩ | ⟨c1, c2, e1, hn, he1, hrej1, -⟩ |
        ⟨c1, c2, e1, e2, hn, he1, hrej1, -⟩ <;> rw [hn] at hnew <;>
        simp only [List.cons.injEq, reduceCtorEq] at hnew
      · obtain ⟨rfl, rfl⟩ := hnew
        rw [he] at hce; simp at hce
      · obtain ⟨rfl, rfl⟩ := hnew
        rw [he] at hce
        simp only [Option.some.injEq] at hce
        rw [hres, hce]
        exact ⟨rfl, rfl⟩
      · obtain ⟨rfl, rfl⟩ := hnew
        rw [he] at hce
        simp only [Option.some.injEq] at hce
        rw [hce, hrej] at hrej0
        exact absurd hrej0 (by simp)
      · obtain ⟨rfl, rfl⟩ := hnew
        rw [he1] at hce
        simp only [Option.some.injEq] at hce
        rw [hce, hrej] at hrej1
        exact absurd hrej1 (by simp)
      · obtain ⟨rfl, rfl⟩ := hnew
        rw [he1] at hce
        simp only [Option.some.injEq] at hce
        rw [hce, hrej] at hrej1
        exact absurd hrej1 (by simp)
    · intro c1 c2 e1 e2 hnew hce1 hce2 hr1 hr2
      rcases hshape with ⟨hn, -⟩ | ⟨c0, hn, he, -⟩ | ⟨c0, e0, hn, he, -, hres, -⟩ |
        ⟨c0, e0, e3, hn, he, hrej0, -⟩ | ⟨d1, d2, f1, hn, he1, hrej1, he2, -⟩ |
        ⟨d1, d2, f1, f2, hn, he1, hrej1, he2, hres, -⟩ <;> rw [hn] at hnew <;>
        simp only [List.cons.injEq, reduceCtorEq, and_true, and_false] at hnew
      · obtain ⟨rfl, rfl⟩ := hnew
        rw [he2] at hce2; simp at hce2
      · obtain ⟨rfl, rfl⟩ := hnew
        rw [he2] at hce2
        simp only [Option.some.injEq] at hce2
        rw [hres, hce2, handedBack_of_sshRejected csi e2 hr2]
  · obtain ⟨r, w1, new, hrun, hp, hc, -, -, hshape⟩ :=
      GitPull_run fuel env csi dir logger timeout w
    refine ⟨r, w1, new, hrun, hp, hc, ?_, ?_, ?_⟩
    · rcases hshape with ⟨hn, -⟩ | ⟨c, hn, -⟩ | ⟨c, e, hn, -⟩ | ⟨c, e, e2, hn, -⟩ |
        ⟨c1, c2, e1, hn, -⟩ | ⟨c1, c2, e1, e2, hn, -⟩ <;> rw [hn] <;> simp
    · intro c e rest hnew hce hrej
      rcases hshape with ⟨hn, -⟩ | ⟨c0, hn, he, hres, -⟩ | ⟨c0, e0, hn, he, hne, -, hres, -⟩ |
        ⟨c0, e0, e2, hn, he, hrej0, -⟩ | ⟨c1, c2, e1, hn, he1, hrej1, -⟩ |
        ⟨c1, c2, e1, e2, hn, he1, hrej1, -⟩ <;> rw [hn] at hnew <;>
        simp only [List.cons.injEq, reduceCtorEq] at hnew
      · obtain ⟨rfl, rfl⟩ := hnew
        rcases he with he | he
        · rw [he] at hce; simp at hce
        · rw [he] at hce
          simp only [Option.some.injEq] at hce
          rw [hres, ← hce]
          exact ⟨rfl, by simp⟩
      · obtain ⟨rfl, rfl⟩ := hnew
        rw [he] at hce
        simp only [Option.some.injEq] at hce
        rw [hres, ← hce]
        exact ⟨rfl, by simp [hne]⟩
      · obtain ⟨rfl, rfl⟩ := hnew
        rw [he] at hce
        simp only [Option.some.injEq] at hce
        rw [hce, hrej] at hrej0
        exact absurd hrej0 (by simp)
      · obtain ⟨rfl, rfl⟩ := hnew
        rw [he1] at hce
        simp only [Option.some.injEq] at hce
        rw [hce, hrej] at hrej1
        exact absurd hrej1 (by simp)
      · obtain ⟨rfl, rfl⟩ := hnew
        rw [he1] at hce
        simp only [Option.some.injEq] at hce
        rw [hce, hrej] at hrej1
        exact absurd hrej1 (by simp)
    · intro c1 c2 e1 e2 hnew hce1 hce2 hr1 hr2
      rcases hshape with ⟨hn, -⟩ | ⟨c0, hn, he, -⟩ | ⟨c0, e0, hn, he, -⟩ |
        ⟨c0, e0, e3, hn, he, hrej0, -⟩ | ⟨d1, d2, f1, hn, he1, hrej1, he2, -⟩ |
        ⟨d1, d2, f1, f2, hn, he1, hrej1, he2, hne, hres, -⟩ <;> rw [hn] at hnew <;>
        simp only [List.cons.injEq, reduceCtorEq, and_true, and_false] at hnew
      · obtain ⟨rfl, rfl⟩ := hnew
        rcases he2 with he2 | he2
        · rw [he2] at hce2; simp at hce2
        · rw [he2] at hce2
          simp only [Option.some.injEq] at hce2
          rw [← hce2] at hr2
          exact absurd hr2 (by decide)
      · obtain ⟨rfl, rfl⟩ := hnew
        rw [he2] at hce2
        simp only [Option.some.injEq] at hce2
        rw [hres, hce2, handedBack_of_sshRejected csi e2 hr2]

/-- A pass of `GitClone` on an SSH endpoint whose key loads is the clone attempt
with that key. -/
theorem GitClonePass_ssh (env : Env) (csi : CodeSourceInfo) (dir : String) (logger : Bool)
    (v : LoopVars) (w w0 : World) (ep : Endpoint)
    (hw0 : w.log logger "info" ("开始从Git源(" ++ csi.RepositoryURL ++ ")获取代码") "clone_code" "" = w0)
    (hep : env.NewEndpoint csi.RepositoryURL = .ok ep) (hssh : ep.Protocol = "ssh")
    (hkey : env.NewPublicKeysFromFile "git" (GetPrivateFile env.home w0.fs v.GetPrivateFileParam)
      "" w0 = none) :
    GitClonePass env csi dir logger v w =
      cloneAttempt env csi dir logger { v with timeout := if v.timeout < 1 then 1 else v.timeout }
        { cloneOptions csi logger with
          Auth := some (.publicKeys "git" (GetPrivateFile env.home w0.fs v.GetPrivateFileParam)
            true) }
        (w0.call (.loadKey (GetPrivateFile env.home w0.fs v.GetPrivateFileParam))) := by
  unfold GitClonePass
  simp only [hw0, hep, hssh, if_true, hkey]

/-- C1: for a descriptor whose URL is an SSH endpoint and whose key files load, if
the first clone attempt, made with the tenant key, fails with an error carrying
"ssh: unable to authenticate" and the second, made with the fallback identity,
succeeds with a repository, then `GitClone` returns that repository and no error
after exactly two clone attempts: the first with the key file
`GetPrivateFile(csi.TenantID)`, the second with `GetPrivateFile("builder_rsa")`. -/
theorem C1_fallback_retry (fuel : Nat) (env : Env) (csi : CodeSourceInfo) (dir : String)
    (logger : Bool) (timeout : Int) (w : World) (ep : Endpoint) (rs : Repository)
    (hep : env.NewEndpoint csi.RepositoryURL = .ok ep) (hssh : ep.Protocol = "ssh")
    (hkey1 : ∀ wx, env.NewPublicKeysFromFile "git"
      (GetPrivateFile env.home wx.fs csi.TenantID) "" wx = none)
    (hkey2 : ∀ wx, env.NewPublicKeysFromFile "git"
      (GetPrivateFile env.home wx.fs "builder_rsa") "" wx = none)
    (h1 : ∀ d o wx,
      o.Auth = some (.publicKeys "git" (GetPrivateFile env.home wx.fs csi.TenantID) true) →
      cloneCalls wx.calls = cloneCalls w.calls →
      ∃ e, (env.PlainCloneContext d dir o wx).1.2 = some e ∧ sshRejected e = true)
    (h2 : ∀ d o wx,
      o.Auth = some (.publicKeys "git" (GetPrivateFile env.home wx.fs "builder_rsa") true) →
      (cloneCalls wx.calls).length = (cloneCalls w.calls).length + 1 →
      (env.PlainCloneContext d dir o wx).1 = (some rs, none)) :
    ∃ w1 c1 c2 fs2,
      GitClone (fuel + 2) env csi dir logger timeout w = some ((some rs, none), w1) ∧
      cloneCalls w1.calls = cloneCalls w.calls ++ [c1, c2] ∧
      c1.opts.Auth = some (.publicKeys "git" (GetPrivateFile env.home w.fs csi.TenantID) true) ∧
      c2.opts.Auth = some (.publicKeys "git" (GetPrivateFile env.home fs2 "builder_rsa") true) ∧
      (∃ e, c1.err = some e ∧ sshRejected e = true) ∧ c2.err = none ∧ c2.rs = some rs := by
  unfold GitClone
  -- first pass
  generalize hw0 : w.log logger "info" ("开始从Git源(" ++ csi.RepositoryURL ++ ")获取代码")
    "clone_code" "" = w0
  have hw0c : w0.calls = w.calls := by rw [← hw0]; simp
  have hw0f : w0.fs = w.fs := by rw [← hw0]; simp
  have hpass1 := GitClonePass_ssh env csi dir logger (initVars csi timeout) w w0 ep hw0 hep hssh
    (hkey1 w0)
  obtain ⟨c1, wA, -, -, ho1, hspec1, -, herr1⟩ := cloneAttempt_spec env csi dir logger
    { initVars csi timeout with
      timeout := if (initVars csi timeout).timeout < 1 then 1 else (initVars csi timeout).timeout }
    { cloneOptions csi logger with
      Auth := some (.publicKeys "git"
        (GetPrivateFile env.home w0.fs (initVars csi timeout).GetPrivateFileParam) true) }
    (w0.call (.loadKey (GetPrivateFile env.home w0.fs (initVars csi timeout).GetPrivateFileParam)))
  rw [← hpass1] at hspec1
  obtain ⟨e1, he1, hrej1⟩ := h1
    (minutes (if (initVars csi timeout).timeout < 1 then 1 else (initVars csi timeout).timeout))
    { cloneOptions csi logger with
      Auth := some (.publicKeys "git"
        (GetPrivateFile env.home w0.fs (initVars csi timeout).GetPrivateFileParam) true) }
    (w0.call (.loadKey (GetPrivateFile env.home w0.fs (initVars csi timeout).GetPrivateFileParam)))
    rfl (by simp [hw0c])
  rw [he1] at herr1
  obtain ⟨hcA, -, hcase1⟩ := hspec1
  have hcA1 : cloneCalls wA.calls = cloneCalls w.calls ++ [c1] := by
    rw [hcA]; simp [hw0c]
  have hgoto : ∃ v2, v2.GetPrivateFileParam = "builder_rsa" ∧
      GitClonePass env csi dir logger (initVars csi timeout) w = .goto v2 wA := by
    rcases hcase1 with ⟨hnone, -⟩ | ⟨e, hce, -, -, hc⟩
    · rw [herr1] at hnone; simp at hnone
    · rw [herr1] at hce
      simp only [Option.some.injEq] at hce
      rw [← hce] at hc
      rcases hc with ⟨-, -, hs⟩ | ⟨hf, -⟩
      · exact ⟨_, rfl, hs⟩
      · rcases hf with hf | hf
        · rw [hrej1] at hf; simp at hf
        · simp [initVars] at hf
  obtain ⟨v2, hv2, hs1⟩ := hgoto
  rw [runLoop_goto _ _ _ _ _ _ hs1]
  -- second pass
  generalize hwB : wA.log logger "info" ("开始从Git源(" ++ csi.RepositoryURL ++ ")获取代码")
    "clone_code" "" = wB
  have hwBc : wB.calls = wA.calls := by rw [← hwB]; simp
  have hkeyB : env.NewPublicKeysFromFile "git"
      (GetPrivateFile env.home wB.fs v2.GetPrivateFileParam) "" wB = none := by
    rw [hv2]; exact hkey2 wB
  have hpass2 := GitClonePass_ssh env csi dir logger v2 wA wB ep hwB hep hssh hkeyB
  obtain ⟨c2, wC, -, -, ho2, hspec2, hrs2, herr2⟩ := cloneAttempt_spec env csi dir logger
    { v2 with timeout := if v2.timeout < 1 then 1 else v2.timeout }
    { cloneOptions csi logger with
      Auth := some (.publicKeys "git" (GetPrivateFile env.home wB.fs v2.GetPrivateFileParam) true) }
    (wB.call (.loadKey (GetPrivateFile env.home wB.fs v2.GetPrivateFileParam)))
  rw [← hpass2] at hspec2
  have hres2 := h2 (minutes (if v2.timeout < 1 then 1 else v2.timeout))
    { cloneOptions csi logger with
      Auth := some (.publicKeys "git" (GetPrivateFile env.home wB.fs v2.GetPrivateFileParam) true) }
    (wB.call (.loadKey (GetPrivateFile env.home wB.fs v2.GetPrivateFileParam)))
    (by rw [hv2]; rfl) (by simp [hwBc, hcA1])
  rw [hres2] at hrs2 herr2
  simp only at hrs2 herr2
  obtain ⟨hcC, -, hcase2⟩ := hspec2
  have hs2 : GitClonePass env csi dir logger v2 wA = .ret (some rs, none) wC := by
    rcases hcase2 with ⟨-, hs, -⟩ | ⟨e, hce, -⟩
    · rw [hs, hrs2]
    · rw [herr2] at hce; simp at hce
  refine ⟨wC, c1, c2, wB.fs, runLoop_ret _ _ _ _ _ _ hs2, ?_, ?_, ?_, ⟨e1, herr1, hrej1⟩, herr2,
    hrs2⟩
  · rw [hcC]; simp [hwBc, hcA1]
  · rw [ho1, ← hw0f]; rfl
  · rw [ho2, hv2]

/-- A concrete instance: the tenant key is rejected and the shared
key accepted. -/
theorem C1_fallback_retry_witness :
    ∃ w1 c1 c2 fs2,
      GitClone 2 retryEnv csiSsh "/src" false 5 World.blank = some ((some ⟨1⟩, none), w1) ∧
      cloneCalls w1.calls = cloneCalls World.blank.calls ++ [c1, c2] ∧
      c1.opts.Auth = some (.publicKeys "git"
        (GetPrivateFile retryEnv.home World.blank.fs csiSsh.TenantID) true) ∧
      c2.opts.Auth = some (.publicKeys "git" (GetPrivateFile retryEnv.home fs2 "builder_rsa") true) ∧
      (∃ e, c1.err = some e ∧ sshRejected e = true) ∧ c2.err = none ∧ c2.rs = some ⟨1⟩ :=
  C1_fallback_retry 0 retryEnv csiSsh "/src" false 5 World.blank ⟨"ssh"⟩ ⟨1⟩ rfl rfl
    (fun _ => rfl) (fun _ => rfl)
    (fun _ _ wx _ hc => by
      have h0 : cloneCalls wx.calls = [] := hc
      refine ⟨.other
        "ssh: handshake failed: ssh: unable to authenticate, attempted methods [none publickey]",
        ?_, by decide⟩
      simp [retryEnv, h0])
    (fun _ _ wx _ hc => by
      have h1 : (cloneCalls wx.calls).length = 1 := hc
      have h0 : cloneCalls wx.calls ≠ [] := by
        intro h
        rw [h] at h1
        simp at h1
      simp [retryEnv, h0])

theorem GitCloneOrPull_of_pull_error (fuel : Nat) (env : Env) (csi : CodeSourceInfo)
    (dir : String) (logger : Bool) (timeout : Int) (w w1 : World) (re : Option Repository)
    (e : GoError) (hgit : (FileExists w.fs (path_Join [dir, ".git"])).1 = true)
    (hpull : GitPull fuel env csi dir logger timeout w = some ((re, some e), w1)) :
    GitCloneOrPull fuel env csi dir logger timeout w =
      emptyAndClone fuel env csi dir logger timeout w1 := by
  unfold GitCloneOrPull
  have h2 : (FileExists w.fs (path_Join [dir, ".git"])).2 = none := rfl
  simp [hgit, h2, hpull]

theorem GitCloneOrPull_of_pull_ok (fuel : Nat) (env : Env) (csi : CodeSourceInfo)
    (dir : String) (logger : Bool) (timeout : Int) (w w1 : World) (rs : Repository)
    (hgit : (FileExists w.fs (path_Join [dir, ".git"])).1 = true)
    (hpull : GitPull fuel env csi dir logger timeout w = some ((some rs, none), w1)) :
    GitCloneOrPull fuel env csi dir logger timeout w = some (.returned (some rs, none) w1) := by
  unfold GitCloneOrPull
  have h2 : (FileExists w.fs (path_Join [dir, ".git"])).2 = none := rfl
  simp [hgit, h2, hpull]

/-- C3, as stated, fails: the removal of the destination can fail, and then
`GitCloneOrPull` goes on to clone into the directory as it is.  Here the pull
fails, the removal fails, the directory is still there at the end and the result
is the error of a clone into the old tree, whereas `GitClone` on the emptied
destination returns a repository. -/
theorem C3_counterexample :
    (GitPull 2 (sampleEnv (fun _ => none) (fun _ => some .ErrRepositoryNotFound) true
        (fun _ => false)) csiHttps "/src" false 5 World.cloned).map (fun r => r.1.2) =
      some (some .ErrRepositoryNotFound) ∧
    (GitCloneOrPull 2 (sampleEnv (fun _ => none) (fun _ => some .ErrRepositoryNotFound) true
        (fun _ => false)) csiHttps "/src" false 5 World.cloned).map
      (fun o => (o.result, o.world.fs.stat "/src")) =
      some (some (none, some (.other "repository already exists")), true) ∧
    ((GitPull 2 (sampleEnv (fun _ => none) (fun _ => some .ErrRepositoryNotFound) true
        (fun _ => false)) csiHttps "/src" false 5 World.cloned).bind
      (fun r => GitClone 2 (sampleEnv (fun _ => none) (fun _ => some .ErrRepositoryNotFound) true
        (fun _ => false)) csiHttps "/src" false 5
        { r.2 with fs := r.2.fs.removeTree "/src" })).map (fun r => r.1) =
      some (some ⟨1⟩, none) := by
  decide

theorem os_RemoveAll_failed (env : Env) (dir : String) (w : World) (e : GoError) (fs2 : FS)
    (h : env.RemoveAllFailure dir w = some (e, fs2)) :
    os_RemoveAll env dir w =
      (some e, { w with fs := fs2, calls := w.calls ++ [.removeAll dir] }) := by
  simp [os_RemoveAll, h]

/-- C3, amended: for a destination holding a `.git` entry, when `GitPull` returns an
error it has removed nothing and cloned nothing, and the filesystem is as it was
or as a pull attempt left it.  `GitCloneOrPull` then calls `os.RemoveAll` on the
destination.  When that removal succeeds, the destination directory and all
below it are gone, and the result of `GitCloneOrPull` is exactly the result of
`GitClone` run on the emptied destination.  When it fails, the failure is logged
and the result is exactly the result of `GitClone` run on the filesystem the
failed removal left.  `GitPull` does return an error whenever the transport
gives every pull an error other than already-up-to-date. -/
theorem C3_pull_failure_resync (fuel : Nat) (env : Env) (csi : CodeSourceInfo) (dir : String)
    (logger : Bool) (timeout : Int) (w : World)
    (hgit : (FileExists w.fs (path_Join [dir, ".git"])).1 = true) :
    ∃ r w1 new, GitPull (fuel + 2) env csi dir logger timeout w = some (r, w1) ∧
      pullCalls w1.calls = pullCalls w.calls ++ new ∧
      ((∀ d rp o wx, ∃ e, (env.PullContext d rp o wx).1 = some e ∧ e ≠ .NoErrAlreadyUpToDate) →
        r.2 ≠ none) ∧
      (r.2 ≠ none →
        removals w1.calls = removals w.calls ∧ cloneCalls w1.calls = cloneCalls w.calls ∧
        (w1.fs = w.fs ∨ ∃ c ∈ new, w1.fs = c.left) ∧
        (env.RemoveAllFailure dir w1 = none →
          (w1.fs.removeTree dir).gone dir ∧
          GitCloneOrPull (fuel + 2) env csi dir logger timeout w =
            (GitClone (fuel + 2) env csi dir logger timeout
              { w1 with fs := w1.fs.removeTree dir, calls := w1.calls ++ [.removeAll dir] }).map
              (fun x => .returned x.1 x.2)) ∧
        (∀ e fs2, env.RemoveAllFailure dir w1 = some (e, fs2) →
          GitCloneOrPull (fuel + 2) env csi dir logger timeout w =
            (GitClone (fuel + 2) env csi dir logger timeout
              (({ w1 with fs := fs2, calls := w1.calls ++ [.removeAll dir] } : World).logFailure
                logger "清空代码目录失败。")).map
              (fun x => .returned x.1 x.2))) := by
  obtain ⟨r, w1, new, hrun, hp, hc, hr, hgood, hshape⟩ :=
    GitPull_run fuel env csi dir logger timeout w
  refine ⟨r, w1, new, hrun, hp, fun hall => ?_, fun hne => ?_⟩
  · have hbad : ∀ c ∈ new, ¬(c.err = none ∨ c.err = some .NoErrAlreadyUpToDate) := by
      intro c hcm hcase
      obtain ⟨-, -, -, -, wx, hx⟩ := hgood c hcm
      obtain ⟨e, he, hne⟩ := hall c.deadline c.repo c.opts wx
      rw [he] at hx
      rcases hcase with h | h
      · rw [h] at hx; simp at hx
      · rw [h] at hx
        simp only [Option.some.injEq] at hx
        exact hne hx.symm
    rcases hshape with ⟨-, -, hne, -⟩ | ⟨c0, hn, he, -⟩ | ⟨c0, e0, hn, -, -, -, hres, -⟩ |
      ⟨c0, e0, e2, hn, -, -, hres, -⟩ | ⟨c1, c2, e1, hn, -, -, he, -⟩ |
      ⟨c1, c2, e1, e2, hn, -, -, -, -, hres, -⟩
    · exact hne
    · exact absurd he (hbad c0 (by rw [hn]; simp))
    · rw [hres]; simp
    · rw [hres]; simp
    · exact absurd he (hbad c2 (by rw [hn]; simp))
    · rw [hres]; simp
  obtain ⟨re, err⟩ := r
  cases err with
  | none => exact absurd rfl hne
  | some e =>
    have hcop := GitCloneOrPull_of_pull_error (fuel + 2) env csi dir logger timeout w w1 re e hgit
      hrun
    refine ⟨hr, hc, ?_, fun hrm => ⟨gone_removeTree _ _, ?_⟩, fun e2 fs2 hfail => ?_⟩
    · rcases hshape with ⟨-, -, -, hfs⟩ | ⟨c, hn, -, -, hfs⟩ | ⟨c, e0, hn, -, -, -, -, hfs⟩ |
        ⟨c, e0, e2, hn, -, -, -, hfs⟩ | ⟨c1, c2, e1, hn, -, -, -, -, hfs⟩ |
        ⟨c1, c2, e1, e2, hn, -, -, -, -, -, hfs⟩
      · exact Or.inl hfs
      · exact Or.inr ⟨c, by rw [hn]; simp, hfs⟩
      · exact Or.inr ⟨c, by rw [hn]; simp, hfs⟩
      · exact Or.inr ⟨c, by rw [hn]; simp, hfs⟩
      · exact Or.inr ⟨c2, by rw [hn]; simp, hfs⟩
      · exact Or.inr ⟨c2, by rw [hn]; simp, hfs⟩
    · rw [hcop]
      unfold emptyAndClone
      rw [(os_RemoveAll_spec env dir w1).2.2 hrm]
      simp
    · rw [hcop]
      unfold emptyAndClone
      rw [os_RemoveAll_failed env dir w1 e2 fs2 hfail]
      simp

/-- A concrete instance: the repository directory `/src`, named as `//src`, whose
upstream has disappeared.  The pull fails, the directory is removed under either
spelling, and the clone into the emptied destination returns a repository after
one removal and one clone attempt. -/
theorem C3_pull_failure_resync_witness :
    (∃ r w1 new,
      GitPull 2 (sampleEnv (fun _ => none) (fun _ => some .ErrRepositoryNotFound) false
        (fun _ => false)) csiHttps "//src" false 5 World.cloned = some (r, w1) ∧
      pullCalls w1.calls = pullCalls World.cloned.calls ++ new ∧
      ((∀ d rp o wx, ∃ e,
          ((sampleEnv (fun _ => none) (fun _ => some .ErrRepositoryNotFound) false
            (fun _ => false)).PullContext d rp o wx).1 = some e ∧ e ≠ .NoErrAlreadyUpToDate) →
        r.2 ≠ none) ∧
      (r.2 ≠ none →
        removals w1.calls = removals World.cloned.calls ∧
        cloneCalls w1.calls = cloneCalls World.cloned.calls ∧
        (w1.fs = World.cloned.fs ∨ ∃ c ∈ new, w1.fs = c.left) ∧
        ((sampleEnv (fun _ => none) (fun _ => some .ErrRepositoryNotFound) false
            (fun _ => false)).RemoveAllFailure "//src" w1 = none →
          (w1.fs.removeTree "//src").gone "//src" ∧
          GitCloneOrPull 2 (sampleEnv (fun _ => none) (fun _ => some .ErrRepositoryNotFound) false
              (fun _ => false)) csiHttps "//src" false 5 World.cloned =
            (GitClone 2 (sampleEnv (fun _ => none) (fun _ => some .ErrRepositoryNotFound) false
              (fun _ => false)) csiHttps "//src" false 5
              { w1 with
                fs := w1.fs.removeTree "//src"
                calls := w1.calls ++ [.removeAll "//src"] }).map
              (fun x => .returned x.1 x.2)) ∧
        (∀ e fs2, (sampleEnv (fun _ => none) (fun _ => some .ErrRepositoryNotFound) false
            (fun _ => false)).RemoveAllFailure "//src" w1 = some (e, fs2) →
          GitCloneOrPull 2 (sampleEnv (fun _ => none) (fun _ => some .ErrRepositoryNotFound) false
              (fun _ => false)) csiHttps "//src" false 5 World.cloned =
            (GitClone 2 (sampleEnv (fun _ => none) (fun _ => some .ErrRepositoryNotFound) false
              (fun _ => false)) csiHttps "//src" false 5
              (({ w1 with fs := fs2, calls := w1.calls ++ [.removeAll "//src"] } :
                World).logFailure false "清空代码目录失败。")).map
              (fun x => .returned x.1 x.2)))) ∧
    (GitPull 2 (sampleEnv (fun _ => none) (fun _ => some .ErrRepositoryNotFound) false
        (fun _ => false)) csiHttps "//src" false 5 World.cloned).map (fun r => r.1.2) =
      some (some .ErrRepositoryNotFound) ∧
    (GitCloneOrPull 2 (sampleEnv (fun _ => none) (fun _ => some .ErrRepositoryNotFound) false
        (fun _ => false)) csiHttps "//src" false 5 World.cloned).map
      (fun o => (o.result, removals o.world.calls, (cloneCalls o.world.calls).length)) =
      some (some (some ⟨1⟩, none), ["//src"], 1) ∧
    World.cloned.fs.removeTree "//src" =
      [("/root/.ssh/tenant1", some "key1"), ("/root/.ssh/builder_rsa", some "key2")] :=
  ⟨C3_pull_failure_resync 0 (sampleEnv (fun _ => none) (fun _ => some .ErrRepositoryNotFound)
      false (fun _ => false)) csiHttps "//src" false 5 World.cloned (by decide),
    by decide, by decide, by decide⟩

theorem pullAttempt_upToDate (env : Env) (csi : CodeSourceInfo) (dir : String) (logger : Bool)
    (v : LoopVars) (opts : PullOptions) (w : World) (rs : Repository)
    (hopen : env.PlainOpen dir w = .ok rs)
    (hwt : env.Worktree rs (w.call (.plainOpen dir)) = none)
    (hpull : (env.PullContext (minutes v.timeout) rs opts (w.call (.plainOpen dir))).1 =
      some .NoErrAlreadyUpToDate) :
    ∃ w1 c, pullAttempt env csi dir logger v opts w = .ret (some rs, none) w1 ∧
      w1.calls = w.calls ++ [.plainOpen dir, .pull c] ∧ c.repo = rs ∧
      c.err = some .NoErrAlreadyUpToDate ∧ w1.fs = c.left := by
  unfold pullAttempt
  simp only [hopen, hwt, hpull]
  refine ⟨runDeferred v
      { w.call (.plainOpen dir) with
        fs := (env.PullContext (minutes v.timeout) rs opts (w.call (.plainOpen dir))).2
        calls := (w.call (.plainOpen dir)).calls ++
          [.pull ⟨minutes v.timeout, rs, opts, some .NoErrAlreadyUpToDate,
            (env.PullContext (minutes v.timeout) rs opts (w.call (.plainOpen dir))).2⟩] },
    ⟨minutes v.timeout, rs, opts, some .NoErrAlreadyUpToDate,
      (env.PullContext (minutes v.timeout) rs opts (w.call (.plainOpen dir))).2⟩, ?_, ?_, rfl, rfl,
    ?_⟩
  · simp [pullFailed, GoError.Error, upToDate_text_ssh, upToDate_text_deadline]
  · simp
  · simp

/-- A pass of `GitPull` in which the endpoint parses, the key (for SSH) loads, the
repository opens and the transport reports already-up-to-date returns the opened
repository and no error after that one pull attempt. -/
theorem GitPullPass_upToDate (env : Env) (csi : CodeSourceInfo) (dir : String) (logger : Bool)
    (v : LoopVars) (w : World) (ep : Endpoint) (rs : Repository)
    (hep : env.NewEndpoint csi.RepositoryURL = .ok ep)
    (hkey : ep.Protocol = "ssh" → ∀ wx, wx.fs = w.fs →
      env.NewPublicKeysFromFile "git" (GetPrivateFile env.home wx.fs v.GetPrivateFileParam) "" wx =
        none)
    (hopen : ∀ wx, wx.fs = w.fs → env.PlainOpen dir wx = .ok rs)
    (hwt : ∀ wx, wx.fs = w.fs → env.Worktree rs wx = none)
    (hpull : ∀ d o wx, wx.fs = w.fs →
      (env.PullContext d rs o wx).1 = some .NoErrAlreadyUpToDate) :
    ∃ w1 c, GitPullPass env csi dir logger v w = .ret (some rs, none) w1 ∧
      pullCalls w1.calls = pullCalls w.calls ++ [c] ∧ cloneCalls w1.calls = cloneCalls w.calls ∧
      removals w1.calls = removals w.calls ∧ c.repo = rs ∧
      c.err = some .NoErrAlreadyUpToDate ∧ w1.fs = c.left := by
  unfold GitPullPass
  generalize hw0 : w.log logger "info" ("开始从Git源(" ++ csi.RepositoryURL ++ ")更新代码")
    "clone_code" "" = w0
  have hw0c : w0.calls = w.calls := by rw [← hw0]; simp
  have hw0f : w0.fs = w.fs := by rw [← hw0]; simp
  simp only [hep]
  by_cases hssh : ep.Protocol = "ssh"
  · simp only [hssh, if_true, hkey hssh w0 hw0f]
    obtain ⟨w1, c, hs, hcalls, hrepo, herr, hfs⟩ := pullAttempt_upToDate env csi dir logger
      { v with timeout := if v.timeout < 1 then 1 else v.timeout }
      { pullOptions csi logger with
        Auth := some (.publicKeys "git" (GetPrivateFile env.home w0.fs v.GetPrivateFileParam)
          true) }
      (w0.call (.loadKey (GetPrivateFile env.home w0.fs v.GetPrivateFileParam))) rs
      (hopen _ hw0f) (hwt _ hw0f) (hpull _ _ _ hw0f)
    exact ⟨w1, c, hs, by rw [hcalls]; simp [hw0c], by rw [hcalls]; simp [hw0c],
      by rw [hcalls]; simp [hw0c], hrepo, herr, hfs⟩
  · simp only [hssh, if_false]
    obtain ⟨-, -, hv3, hv4⟩ := pullProxy_spec env csi
      { v with timeout := if v.timeout < 1 then 1 else v.timeout } w0
    generalize pullProxy env csi
      { v with timeout := if v.timeout < 1 then 1 else v.timeout } w0 = vw at hv3 hv4 ⊢
    have hvf : vw.2.fs = w.fs := by rw [hv4, hw0f]
    obtain ⟨w1, c, hs, hcalls, hrepo, herr, hfs⟩ := pullAttempt_upToDate env csi dir logger vw.1
      { pullOptions csi logger with Auth := basicAuthOf csi } vw.2 rs
      (hopen _ hvf) (hwt _ hvf) (hpull _ _ _ hvf)
    exact ⟨w1, c, hs, by rw [hcalls]; simp [hv3, hw0c], by rw [hcalls]; simp [hv3, hw0c],
      by rw [hcalls]; simp [hv3, hw0c], hrepo, herr, hfs⟩

/-- C5: for a destination holding a `.git` entry.  (a) When the endpoint parses, the
tenant key (for an SSH endpoint) loads, the repository opens and the transport
pull reports already-up-to-date, `GitPull` makes exactly that one pull attempt
and returns the opened repository with no error, and `GitCloneOrPull` returns the
same, having removed nothing and cloned nothing and leaving the filesystem as the
pull left it.  (b) The same holds whenever the last pull attempt of the call
reports already-up-to-date, a retry after a rejected key included.  (c)
Already-up-to-date is the only transport error turned into success: a call that
returns no error ended its last pull attempt with no error or with
already-up-to-date, and when the transport only ever gives other errors the call
returns an error. -/
theorem C5_already_up_to_date (fuel : Nat) (env : Env) (csi : CodeSourceInfo) (dir : String)
    (logger : Bool) (timeout : Int) (w : World)
    (hgit : (FileExists w.fs (path_Join [dir, ".git"])).1 = true) :
    ∃ r w1 new, GitPull (fuel + 2) env csi dir logger timeout w = some (r, w1) ∧
      pullCalls w1.calls = pullCalls w.calls ++ new ∧
      (∀ ep rs, env.NewEndpoint csi.RepositoryURL = .ok ep →
        (ep.Protocol = "ssh" → ∀ wx, wx.fs = w.fs →
          env.NewPublicKeysFromFile "git" (GetPrivateFile env.home wx.fs csi.TenantID) "" wx =
            none) →
        (∀ wx, wx.fs = w.fs → env.PlainOpen dir wx = .ok rs) →
        (∀ wx, wx.fs = w.fs → env.Worktree rs wx = none) →
        (∀ d o wx, wx.fs = w.fs → (env.PullContext d rs o wx).1 = some .NoErrAlreadyUpToDate) →
        ∃ c, new = [c] ∧ c.repo = rs ∧ c.err = some .NoErrAlreadyUpToDate ∧
          r = (some rs, none) ∧
          GitCloneOrPull (fuel + 2) env csi dir logger timeout w =
            some (.returned (some rs, none) w1) ∧
          removals w1.calls = removals w.calls ∧ cloneCalls w1.calls = cloneCalls w.calls ∧
          w1.fs = c.left) ∧
      (∀ c, new.getLast? = some c → c.err = some .NoErrAlreadyUpToDate →
        r = (some c.repo, none) ∧
        GitCloneOrPull (fuel + 2) env csi dir logger timeout w =
          some (.returned (some c.repo, none) w1) ∧
        removals w1.calls = removals w.calls ∧ cloneCalls w1.calls = cloneCalls w.calls ∧
        w1.fs = c.left) ∧
      (r.2 = none →
        ∃ c, new.getLast? = some c ∧ (c.err = none ∨ c.err = some .NoErrAlreadyUpToDate) ∧
          r.1 = some c.repo) ∧
      ((∀ d rp o wx, ∃ e, (env.PullContext d rp o wx).1 = some e ∧ e ≠ .NoErrAlreadyUpToDate) →
        r.2 ≠ none) := by
  obtain ⟨r, w1, new, hrun, hp, hc, hr, hgood, hshape⟩ :=
    GitPull_run fuel env csi dir logger timeout w
  refine ⟨r, w1, new, hrun, hp, ?_, ?_, ?_, ?_⟩
  · intro ep rs hep hkey hopen hwt hpull
    obtain ⟨w2, c, hs, hp2, hc2, hr2, hrepo, herr, hfs⟩ := GitPullPass_upToDate env csi dir logger
      (initVars csi timeout) w ep rs hep hkey hopen hwt hpull
    have hrun2 : GitPull (fuel + 2) env csi dir logger timeout w = some ((some rs, none), w2) :=
      runLoop_ret _ _ _ _ _ _ hs
    rw [hrun] at hrun2
    simp only [Option.some.injEq, Prod.mk.injEq] at hrun2
    obtain ⟨hres, hw⟩ := hrun2
    subst hw
    rw [hp] at hp2
    have hnew : new = [c] := List.append_cancel_left hp2
    rw [hres] at hrun
    exact ⟨c, hnew, hrepo, herr, hres,
      GitCloneOrPull_of_pull_ok (fuel + 2) env csi dir logger timeout w w1 rs hgit hrun, hr2, hc2,
      hfs⟩
  · intro c hlast hce
    have key : r = (some c.repo, none) ∧ w1.fs = c.left := by
      rcases hshape with ⟨hn, -⟩ | ⟨c0, hn, -, hres, hfs⟩ | ⟨c0, e0, hn, he, hne, -⟩ |
        ⟨c0, e0, e2, hn, he, hrej, -⟩ | ⟨c1, c2, e1, hn, -, -, -, hres, hfs⟩ |
        ⟨c1, c2, e1, e2, hn, -, -, he2, hne, -⟩ <;> rw [hn] at hlast <;>
        simp only [List.getLast?_nil, List.getLast?_singleton, List.getLast?_cons_cons,
          Option.some.injEq, reduceCtorEq] at hlast
      · rw [← hlast]; exact ⟨hres, hfs⟩
      · rw [hlast, hce] at he
        simp only [Option.some.injEq] at he
        exact absurd he.symm hne
      · rw [hlast, hce] at he
        simp only [Option.some.injEq] at he
        rw [← he] at hrej
        exact absurd hrej (by decide)
      · rw [← hlast]; exact ⟨hres, hfs⟩
      · rw [hlast, hce] at he2
        simp only [Option.some.injEq] at he2
        exact absurd he2.symm hne
    obtain ⟨hres, hfs⟩ := key
    rw [hres] at hrun
    exact ⟨hres, GitCloneOrPull_of_pull_ok (fuel + 2) env csi dir logger timeout w w1 c.repo hgit
      hrun, hr, hc, hfs⟩
  · intro hnone
    rcases hshape with ⟨-, -, hne, -⟩ | ⟨c0, hn, he, hres, -⟩ | ⟨c0, e0, hn, -, -, -, hres, -⟩ |
      ⟨c0, e0, e2, hn, -, -, hres, -⟩ | ⟨c1, c2, e1, hn, -, -, he, hres, -⟩ |
      ⟨c1, c2, e1, e2, hn, -, -, -, -, hres, -⟩
    · exact absurd hnone hne
    · exact ⟨c0, by rw [hn]; rfl, he, by rw [hres]⟩
    · rw [hres] at hnone; simp at hnone
    · rw [hres] at hnone; simp at hnone
    · exact ⟨c2, by rw [hn]; rfl, he, by rw [hres]⟩
    · rw [hres] at hnone; simp at hnone
  · intro hall
    have hbad : ∀ c ∈ new, ¬(c.err = none ∨ c.err = some .NoErrAlreadyUpToDate) := by
      intro c hcm hcase
      obtain ⟨-, -, -, -, wx, hx⟩ := hgood c hcm
      obtain ⟨e, he, hne⟩ := hall c.deadline c.repo c.opts wx
      rw [he] at hx
      rcases hcase with h | h
      · rw [h] at hx; simp at hx
      · rw [h] at hx
        simp only [Option.some.injEq] at hx
        exact hne hx.symm
    rcases hshape with ⟨-, -, hne, -⟩ | ⟨c0, hn, he, -⟩ | ⟨c0, e0, hn, -, -, -, hres, -⟩ |
      ⟨c0, e0, e2, hn, -, -, hres, -⟩ | ⟨c1, c2, e1, hn, -, -, he, -⟩ |
      ⟨c1, c2, e1, e2, hn, -, -, -, -, hres, -⟩
    · exact hne
    · exact absurd he (hbad c0 (by rw [hn]; simp))
    · rw [hres]; simp
    · rw [hres]; simp
    · exact absurd he (hbad c2 (by rw [hn]; simp))
    · rw [hres]; simp

/-- A concrete instance: a second synchronisation of an SSH repository with nothing
new upstream.  The tenant key loads, the repository opens, the one pull attempt
reports already-up-to-date, and both `GitPull` and `GitCloneOrPull` return the
opened repository with no error. -/
theorem C5_already_up_to_date_witness :
    ∃ w1 c,
      GitPull 2 (sampleEnv (fun _ => none) (fun _ => some .NoErrAlreadyUpToDate) false
        (fun _ => false)) csiSsh "/src" false 5 World.cloned = some ((some ⟨2⟩, none), w1) ∧
      pullCalls w1.calls = pullCalls World.cloned.calls ++ [c] ∧
      c.repo = ⟨2⟩ ∧ c.err = some .NoErrAlreadyUpToDate ∧
      GitCloneOrPull 2 (sampleEnv (fun _ => none) (fun _ => some .NoErrAlreadyUpToDate) false
        (fun _ => false)) csiSsh "/src" false 5 World.cloned =
        some (.returned (some ⟨2⟩, none) w1) ∧
      removals w1.calls = removals World.cloned.calls ∧
      cloneCalls w1.calls = cloneCalls World.cloned.calls ∧ w1.fs = c.left := by
  obtain ⟨r, w1, new, hrun, hp, hA, -⟩ := C5_already_up_to_date 0
    (sampleEnv (fun _ => none) (fun _ => some .NoErrAlreadyUpToDate) false (fun _ => false))
    csiSsh "/src" false 5 World.cloned (by decide)
  obtain ⟨c, hnew, hrepo, herr, hres, hcop, hr, hc, hfs⟩ := hA ⟨"ssh"⟩ ⟨2⟩ rfl
    (fun _ wx hfs => by
      show (if wx.fs.stat _ = true then none else _) = none
      rw [hfs]
      rfl)
    (fun wx hfs => by
      show (if wx.fs.stat _ = true then Except.ok _ else _) = Except.ok _
      rw [hfs]
      rfl)
    (fun _ _ => rfl) (fun _ _ _ _ => rfl)
  rw [hres] at hrun
  rw [hnew] at hp
  exact ⟨w1, c, hrun, hp, hrepo, herr, hcop, hr, hc, hfs⟩

theorem cleanChars_ne_nil (p : List Char) : cleanChars p ≠ [] := by
  have hbuf : ∀ buf : List Char, (if buf = [] then ['.'] else buf) ≠ [] := by
    intro buf
    split
    · simp
    · assumption
  unfold cleanChars
  exact hbuf _

theorem path_Join_ne_empty (h x : String) (hx : x.data ≠ []) : path_Join [h, x] ≠ "" := by
  unfold path_Join
  intro hj
  have hne : ∀ l : List Char, String.mk (cleanChars l) ≠ "" := by
    intro l hl
    exact cleanChars_ne_nil l (congrArg String.data hl)
  cases hx1 : x.data with
  | nil => exact hx hx1
  | cons c cs =>
    cases hd : h.data with
    | nil =>
      simp only [List.map, List.dropWhile, hd, hx1, List.isEmpty] at hj
      exact hne _ hj
    | cons d ds =>
      simp only [List.map, List.dropWhile, hd, List.isEmpty] at hj
      exact hne _ hj

theorem stat_writeFile (fs : FS) (p t : String) (hp : p ≠ "") : (fs.writeFile p t).stat p = true := by
  simp [FS.stat, FS.writeFile, FS.find, hp]

/-- C7, as stated, fails: when the public key file cannot be created, the first call
of `GetPublicKey` still generates a key pair and writes the private key file, and
the second call generates another pair and overwrites the private key file with
a different key. -/
theorem C7_counterexample :
    (keyWrites (GetPublicKey (sampleEnv (fun _ => none) (fun _ => none) false
        (fun p => p == "/root/.ssh/tenant1.pub")) "tenant1" World.blank).2.calls).length = 4 ∧
    (keyWrites (GetPublicKey (sampleEnv (fun _ => none) (fun _ => none) false
        (fun p => p == "/root/.ssh/tenant1.pub")) "tenant1"
      (GetPublicKey (sampleEnv (fun _ => none) (fun _ => none) false
        (fun p => p == "/root/.ssh/tenant1.pub")) "tenant1" World.blank).2).2.calls).length = 8 ∧
    (GetPublicKey (sampleEnv (fun _ => none) (fun _ => none) false
        (fun p => p == "/root/.ssh/tenant1.pub")) "tenant1" World.blank).2.fs.readFile
      "/root/.ssh/tenant1" = "RSA PRIVATE KEY " ∧
    (GetPublicKey (sampleEnv (fun _ => none) (fun _ => none) false
        (fun p => p == "/root/.ssh/tenant1.pub")) "tenant1"
      (GetPublicKey (sampleEnv (fun _ => none) (fun _ => none) false
        (fun p => p == "/root/.ssh/tenant1.pub")) "tenant1" World.blank).2).2.fs.readFile
      "/root/.ssh/tenant1" = "RSA PRIVATE KEY kkkk" := by
  decide

/-- C7, amended: for a tenant whose public key file exists already, or can be
created, a second call of `GetPublicKey` returns the same text as the first and
leaves the world exactly as the first call left it: it generates no key pair and
writes no file. -/
theorem C7_public_key_idempotent (env : Env) (tenantId : String) (w : World)
    (h : (FileExists w.fs
          (path_Join [if env.home = "" then "/root" else env.home,
            "/.ssh/" ++ (tenantId ++ ".pub")])).1 = true ∨
      ∀ wx, env.CreateFailure
          (path_Join [if env.home = "" then "/root" else env.home,
            "/.ssh/" ++ (tenantId ++ ".pub")]) wx = none) :
    (GetPublicKey env tenantId (GetPublicKey env tenantId w).2).1 =
        (GetPublicKey env tenantId w).1 ∧
      (GetPublicKey env tenantId (GetPublicKey env tenantId w).2).2 =
        (GetPublicKey env tenantId w).2 ∧
      keyWrites (GetPublicKey env tenantId (GetPublicKey env tenantId w).2).2.calls =
        keyWrites (GetPublicKey env tenantId w).2.calls := by
  have hpub : path_Join [if env.home = "" then "/root" else env.home,
      "/.ssh/" ++ (tenantId ++ ".pub")] ≠ "" :=
    path_Join_ne_empty _ _ (by simp [String.data_append])
  obtain ⟨pub, hpubdef⟩ : ∃ pub, pub = path_Join [if env.home = "" then "/root" else env.home,
      "/.ssh/" ++ (tenantId ++ ".pub")] := ⟨_, rfl⟩
  rw [← hpubdef] at h hpub
  have hunf : ∀ wx, GetPublicKey env tenantId wx =
      if (FileExists wx.fs pub).1 = true then (wx.fs.readFile pub, wx)
      else
        ((createAndWrite env pub (MakeSSHKeyPair env wx).1.2.1
            (createAndWrite env
              (path_Join [if env.home = "" then "/root" else env.home, "/.ssh/" ++ tenantId])
              (MakeSSHKeyPair env wx).1.1 (MakeSSHKeyPair env wx).2)).fs.readFile pub,
          createAndWrite env pub (MakeSSHKeyPair env wx).1.2.1
            (createAndWrite env
              (path_Join [if env.home = "" then "/root" else env.home, "/.ssh/" ++ tenantId])
              (MakeSSHKeyPair env wx).1.1 (MakeSSHKeyPair env wx).2)) := by
    intro wx
    rw [hpubdef]
    rfl
  have main : GetPublicKey env tenantId (GetPublicKey env tenantId w).2 =
      GetPublicKey env tenantId w := by
    by_cases hex : (FileExists w.fs pub).1 = true
    · have e1 : GetPublicKey env tenantId w = (w.fs.readFile pub, w) := by
        rw [hunf w, if_pos hex]
      rw [e1]
      exact e1
    · have hcf : ∀ wx, env.CreateFailure pub wx = none := h.resolve_left hex
      rw [hunf w, if_neg hex]
      generalize createAndWrite env
        (path_Join [if env.home = "" then "/root" else env.home, "/.ssh/" ++ tenantId])
        (MakeSSHKeyPair env w).1.1 (MakeSSHKeyPair env w).2 = w1
      generalize (MakeSSHKeyPair env w).1.2.1 = pubText
      have hw2 : createAndWrite env pub pubText w1 =
          { w1 with
            fs := w1.fs.writeFile pub pubText
            calls := w1.calls ++ [.create pub, .writeString pub pubText] } := by
        unfold createAndWrite
        rw [hcf w1]
      rw [hw2, hunf]
      have hst : (FileExists (w1.fs.writeFile pub pubText) pub).1 = true :=
        stat_writeFile _ _ _ hpub
      simp only [hst, if_true]
  rw [main]
  exact ⟨rfl, rfl, rfl⟩

/-- A concrete instance: a tenant without keys in a directory
where files can be created. -/
theorem C7_public_key_idempotent_witness :
    (GetPublicKey (sampleEnv (fun _ => none) (fun _ => none) false (fun _ => false)) "tenant1"
        (GetPublicKey (sampleEnv (fun _ => none) (fun _ => none) false (fun _ => false)) "tenant1"
          World.blank).2).1 =
      (GetPublicKey (sampleEnv (fun _ => none) (fun _ => none) false (fun _ => false)) "tenant1"
        World.blank).1 ∧
    (GetPublicKey (sampleEnv (fun _ => none) (fun _ => none) false (fun _ => false)) "tenant1"
        World.blank).1 = "ssh-rsa " ∧
    keyWrites (GetPublicKey (sampleEnv (fun _ => none) (fun _ => none) false (fun _ => false))
        "tenant1"
        (GetPublicKey (sampleEnv (fun _ => none) (fun _ => none) false (fun _ => false)) "tenant1"
          World.blank).2).2.calls =
      keyWrites (GetPublicKey (sampleEnv (fun _ => none) (fun _ => none) false (fun _ => false))
        "tenant1" World.blank).2.calls :=
  ⟨(C7_public_key_idempotent (sampleEnv (fun _ => none) (fun _ => none) false (fun _ => false))
      "tenant1" World.blank (Or.inr (fun _ => rfl))).1, by decide,
    (C7_public_key_idempotent (sampleEnv (fun _ => none) (fun _ => none) false (fun _ => false))
      "tenant1" World.blank (Or.inr (fun _ => rfl))).2.2⟩

end Sources
